import Mathlib

/-! CRenderer: the geometry pipeline of `Main.c`.

A shallow embedding of `process_graphics_pipeline_stages` and `update`
(`src/CRenderer/Main.c`) and theorems about them.

Conventions of the embedding.

* `float` values are elements of a linearly ordered field `F`; the definitions
  are executable at `F = ℚ`. The arithmetic that `Main.c` itself performs on the
  screen coordinates (lines 289-298) is rounded after every operation by
  `round_f32`, the round-to-nearest-even of IEEE 754 binary32 (24-bit
  significand, least exponent -149; overflow to an infinity is not modelled).
  The negation of line 303 is exact in binary32; the arithmetic of `update`
  (lines 344 and 359) is left as field operations, and no theorem uses a field
  law on it.
* `int` is `Int`; the fixed array `triangles_to_render[MAX_TRIANGLES_PER_MESH]`
  is a map from indices to triangles, of which only `0 .. 9999` exist in C.
* The globals of `Main.c` that the two functions read or write form `state`.
* Functions of the other translation units (`Matrix.h`, `Vector.h`, `Light.h`,
  `Clipping.h`, `Triangle.h`, `Camera.h`, `Display.h`, `Mesh.h`), which are not
  part of `Main.c`, are the fields of `Env`: every theorem that does not say
  otherwise holds for all implementations of them. Where a theorem depends on
  what such a helper returns, a hypothesis pins the field to the definition
  modelled from the spec, which is in exact arithmetic.
-/

set_option autoImplicit false
set_option linter.unusedSectionVars false

namespace CRenderer

/-! ## Data model -/

/-- The `vec3_t` of `Vector.h`: three floats. -/
structure vec3_t (F : Type) where
  x : F
  y : F
  z : F

/-- The `vec4_t` of `Vector.h`: four floats. -/
structure vec4_t (F : Type) where
  x : F
  y : F
  z : F
  w : F

/-- The `tex2_t` of `Texture.h`: a UV pair. -/
structure tex2_t (F : Type) where
  u : F
  v : F

/-- The `mat4_t` of `Matrix.h`: `float m[4][4]`, row then column. -/
abbrev mat4_t (F : Type) : Type := Fin 4 → Fin 4 → F

/-- The `face_t` of a mesh: three vertex indices, three UV pairs, a base colour
(`uint32_t`) and the stored normal (unused by the pipeline, line 235). -/
structure face_t (F : Type) where
  a : Nat
  b : Nat
  c : Nat
  a_uv : tex2_t F
  b_uv : tex2_t F
  c_uv : tex2_t F
  color : Nat
  face_normal : vec3_t F

/-- The `mesh_t` of `Mesh.h`. The texture pointer `upng_t*` is a handle. -/
structure mesh_t (F : Type) where
  vertices : List (vec3_t F)
  faces : List (face_t F)
  texture : Nat
  scale : vec3_t F
  rotation : vec3_t F
  translation : vec3_t F

/-- The `triangle_t` of `Triangle.h`, with the fields that lines 307-324 set. -/
structure triangle_t (F : Type) where
  points : Fin 3 → vec4_t F
  texcoords : Fin 3 → tex2_t F
  color : Nat
  texture : Nat
  normal : vec3_t F

/-- The `polygon_t` of `Clipping.h`: the vertices and UVs of a clip polygon and
the face normal handed to `create_polygon_from_triangle`. -/
structure polygon_t (F : Type) where
  vertices : List (vec3_t F)
  texcoords : List (tex2_t F)
  normal : vec3_t F

/-- The globals of `Main.c` (lines 17-27) and the mesh array of `Mesh.h` that
`update` reaches through `get_num_meshes` and `get_mesh`. -/
structure state (F : Type) where
  triangles_to_render : Int → triangle_t F
  num_triangles_to_render : Int
  previous_frame_time : Int
  delta_time : F
  world_matrix : mat4_t F
  proj_matrix : mat4_t F
  view_matrix : mat4_t F
  meshes : List (mesh_t F)

/-- The functions and read-only settings of the other translation units that
`process_graphics_pipeline_stages` calls. -/
structure Env (F : Type) where
  get_window_width : Int
  get_window_height : Int
  is_cull_backface : Bool
  get_camera_position : vec3_t F
  get_camera_lookat_target : vec3_t F
  get_light_direction : vec3_t F
  light_apply_intensity : Nat → F → Nat
  mat4_identity : mat4_t F
  mat4_make_scale : F → F → F → mat4_t F
  mat4_make_translation : F → F → F → mat4_t F
  mat4_make_rotation_x : F → mat4_t F
  mat4_make_rotation_y : F → mat4_t F
  mat4_make_rotation_z : F → mat4_t F
  mat4_mul_mat4 : mat4_t F → mat4_t F → mat4_t F
  mat4_mul_vec4 : mat4_t F → vec4_t F → vec4_t F
  mat4_mul_vec4_project : mat4_t F → vec4_t F → vec4_t F
  mat4_look_at : vec3_t F → vec3_t F → vec3_t F → mat4_t F
  vec4_from_vec3 : vec3_t F → vec4_t F
  vec3_from_vec4 : vec4_t F → vec3_t F
  vec3_sub : vec3_t F → vec3_t F → vec3_t F
  vec3_dot : vec3_t F → vec3_t F → F
  get_triangle_normal : (Fin 3 → vec4_t F) → vec3_t F
  create_polygon_from_triangle :
    vec3_t F → vec3_t F → vec3_t F → tex2_t F → tex2_t F → tex2_t F → vec3_t F → polygon_t F
  clip_polygon : polygon_t F → polygon_t F
  triangles_from_polygon : polygon_t F → List (triangle_t F)

variable {F : Type} [LinearOrderedField F] [FloorRing F]

/-- Line 17: `#define MAX_TRIANGLES_PER_MESH 10000`. -/
def MAX_TRIANGLES_PER_MESH : Int := 10000

/-- The constructor `vec3_new(x, y, z)` of `Vector.h`. -/
def vec3_new (x y z : F) : vec3_t F := ⟨x, y, z⟩

/-! ## Float arithmetic: IEEE 754 binary32, round to nearest, ties to even -/

/-- The integer nearest to `q`, the even one of the two when `q` is half-way. -/
def round_half_even (q : F) : Int :=
  if q - (⌊q⌋ : F) < 1 / 2 then ⌊q⌋
  else if 1 / 2 < q - (⌊q⌋ : F) then ⌊q⌋ + 1
  else if ⌊q⌋ % 2 = 0 then ⌊q⌋ else ⌊q⌋ + 1

/-- The exponent of the unit in the last place of the binary32 numbers around
`x`: 24 significant bits, and never below the exponent -149 of the subnormals. -/
def ulp_exponent (x : F) : Int := max (Int.log 2 |x| - 23) (-149)

/-- The binary32 number nearest to `x` (ties to even): the `float` result of an
operation whose exact result is `x`. A result beyond the largest finite float,
which C turns into an infinity, is not modelled. -/
def round_f32 (x : F) : F :=
  (round_half_even (x / (2 : F) ^ ulp_exponent x) : F) * (2 : F) ^ ulp_exponent x

/-! ## The pipeline of `Main.c` -/

/-- The five matrices that lines 178-182 build from the mesh state. -/
structure mesh_matrices (F : Type) where
  scale_matrix : mat4_t F
  translation_matrix : mat4_t F
  rotation_matrix_x : mat4_t F
  rotation_matrix_y : mat4_t F
  rotation_matrix_z : mat4_t F

/-- Lines 178-182. -/
def make_mesh_matrices (env : Env F) (mesh : mesh_t F) : mesh_matrices F :=
  { scale_matrix := env.mat4_make_scale mesh.scale.x mesh.scale.y mesh.scale.z
    translation_matrix :=
      env.mat4_make_translation mesh.translation.x mesh.translation.y mesh.translation.z
    rotation_matrix_x := env.mat4_make_rotation_x mesh.rotation.x
    rotation_matrix_y := env.mat4_make_rotation_y mesh.rotation.y
    rotation_matrix_z := env.mat4_make_rotation_z mesh.rotation.z }

/-- Lines 209-228: the body of the per-vertex loop. It overwrites the global
`world_matrix` and returns the camera-space vertex. -/
def transform_vertex (env : Env F) (mm : mesh_matrices F) (st : state F)
    (face_vertex : vec3_t F) : state F × vec4_t F :=
  let transformed_vertex := env.vec4_from_vec3 face_vertex
  let st := { st with world_matrix := env.mat4_identity }
  let st := { st with world_matrix := env.mat4_mul_mat4 mm.scale_matrix st.world_matrix }
  let st := { st with world_matrix := env.mat4_mul_mat4 mm.rotation_matrix_z st.world_matrix }
  let st := { st with world_matrix := env.mat4_mul_mat4 mm.rotation_matrix_y st.world_matrix }
  let st := { st with world_matrix := env.mat4_mul_mat4 mm.rotation_matrix_x st.world_matrix }
  let st := { st with world_matrix := env.mat4_mul_mat4 mm.translation_matrix st.world_matrix }
  let transformed_vertex := env.mat4_mul_vec4 st.world_matrix transformed_vertex
  let transformed_vertex := env.mat4_mul_vec4 st.view_matrix transformed_vertex
  (st, transformed_vertex)

/-- Lines 199-202: the three model-space vertices of a face. An index outside
the vertex array is undefined behaviour in C; the embedding reads the origin. -/
def face_vertices (mesh : mesh_t F) (mesh_face : face_t F) : Fin 3 → vec3_t F :=
  ![mesh.vertices.getD mesh_face.a ⟨0, 0, 0⟩,
    mesh.vertices.getD mesh_face.b ⟨0, 0, 0⟩,
    mesh.vertices.getD mesh_face.c ⟨0, 0, 0⟩]

/-- Lines 204-229: the loop `for (j = 0; j < 3; j++)` over the face vertices. -/
def transform_face (env : Env F) (mm : mesh_matrices F) (st : state F)
    (fv : Fin 3 → vec3_t F) : state F × (Fin 3 → vec4_t F) :=
  let r0 := transform_vertex env mm st (fv 0)
  let r1 := transform_vertex env mm r0.1 (fv 1)
  let r2 := transform_vertex env mm r1.1 (fv 2)
  (r2.1, ![r0.2, r1.2, r2.2])

/-- Lines 238-251: the backface test; `true` is the `continue` of line 248. -/
def backface_culled (env : Env F) (transformed_vertices : Fin 3 → vec4_t F)
    (face_normal : vec3_t F) : Bool :=
  if env.is_cull_backface then
    let camera_ray := env.vec3_sub (vec3_new 0 0 0) (env.vec3_from_vec4 (transformed_vertices 0))
    let dot_normal_camera := env.vec3_dot camera_ray face_normal
    if dot_normal_camera < 0 then true else false
  else false

/-- Lines 289-298: scale by half the window, flip y, move to the window centre,
each `*=` and `+=` rounded to `float`. `get_window_width() / 2.0f` converts the
`int` to `float` and divides in `float`. -/
def to_screen (window_width window_height : Int) (p : vec4_t F) : vec4_t F :=
  let half_width := round_f32 (round_f32 (window_width : F) / 2)
  let half_height := round_f32 (round_f32 (window_height : F) / 2)
  let p := { p with x := round_f32 (p.x * half_width) }
  let p := { p with y := round_f32 (p.y * half_height) }
  let p := { p with y := round_f32 (p.y * (-1)) }
  let p := { p with x := round_f32 (p.x + half_width) }
  let p := { p with y := round_f32 (p.y + half_height) }
  p

/-- Lines 284-300: the body of the projection loop for one vertex. -/
def project_point (env : Env F) (proj_matrix : mat4_t F) (p : vec4_t F) : vec4_t F :=
  to_screen env.get_window_width env.get_window_height (env.mat4_mul_vec4_project proj_matrix p)

/-- Lines 279-324: the render-ready triangle built from one clipped triangle. -/
def make_triangle_to_render (env : Env F) (proj_matrix : mat4_t F) (mesh : mesh_t F)
    (mesh_face : face_t F) (face_normal : vec3_t F)
    (triangle_after_clipping : triangle_t F) : triangle_t F :=
  let projected_points : Fin 3 → vec4_t F :=
    fun j => project_point env proj_matrix (triangle_after_clipping.points j)
  let light_intensity_factor := -(env.vec3_dot face_normal env.get_light_direction)
  let triangle_color := env.light_apply_intensity mesh_face.color light_intensity_factor
  { points := fun j =>
      ⟨(projected_points j).x, (projected_points j).y, (projected_points j).z,
        (projected_points j).w⟩
    texcoords := fun j =>
      ⟨(triangle_after_clipping.texcoords j).u, (triangle_after_clipping.texcoords j).v⟩
    color := triangle_color
    texture := mesh.texture
    normal := triangle_after_clipping.normal }

/-- Lines 328-332: store the triangle if the queue has room, else drop it. -/
def save_triangle (st : state F) (triangle_to_render : triangle_t F) : state F :=
  if st.num_triangles_to_render < MAX_TRIANGLES_PER_MESH then
    { st with
      triangles_to_render :=
        Function.update st.triangles_to_render st.num_triangles_to_render triangle_to_render
      num_triangles_to_render := st.num_triangles_to_render + 1 }
  else st

/-- Lines 256-273: build the polygon, clip it, break it into triangles. -/
def clip_face (env : Env F) (mesh_face : face_t F) (transformed_vertices : Fin 3 → vec4_t F)
    (face_normal : vec3_t F) : List (triangle_t F) :=
  let polygon := env.create_polygon_from_triangle
    (env.vec3_from_vec4 (transformed_vertices 0))
    (env.vec3_from_vec4 (transformed_vertices 1))
    (env.vec3_from_vec4 (transformed_vertices 2))
    mesh_face.a_uv mesh_face.b_uv mesh_face.c_uv face_normal
  let polygon := env.clip_polygon polygon
  env.triangles_from_polygon polygon

/-- Lines 254-333: clipping and the loop over the triangles after clipping. -/
def clip_and_save (env : Env F) (mesh : mesh_t F) (mesh_face : face_t F)
    (transformed_vertices : Fin 3 → vec4_t F) (face_normal : vec3_t F) (st : state F) :
    state F :=
  (clip_face env mesh_face transformed_vertices face_normal).foldl
    (fun st triangle_after_clipping =>
      save_triangle st
        (make_triangle_to_render env st.proj_matrix mesh mesh_face face_normal
          triangle_after_clipping))
    st

/-- Lines 197-333: the body of the loop over the faces of the mesh. -/
def process_face (env : Env F) (mm : mesh_matrices F) (mesh : mesh_t F) (st : state F)
    (mesh_face : face_t F) : state F :=
  let r := transform_face env mm st (face_vertices mesh mesh_face)
  let st := r.1
  let transformed_vertices := r.2
  let face_normal := env.get_triangle_normal transformed_vertices
  if backface_culled env transformed_vertices face_normal then st
  else clip_and_save env mesh mesh_face transformed_vertices face_normal st

/-- Lines 174-335: `process_graphics_pipeline_stages(mesh)`. -/
def process_graphics_pipeline_stages (env : Env F) (mesh : mesh_t F) (st : state F) :
    state F :=
  let mm := make_mesh_matrices env mesh
  let target := env.get_camera_lookat_target
  let up_direction : vec3_t F := vec3_new 0 1 0
  let st := { st with view_matrix := env.mat4_look_at env.get_camera_position target up_direction }
  mesh.faces.foldl (process_face env mm mesh) st

/-- Line 344: `(SDL_GetTicks() - previous_frame_time) / 1000.0`. The difference
is taken in `Uint32`, so it wraps modulo `2 ^ 32`. -/
def compute_delta_time (ticks : Nat) (previous_frame_time : Int) : F :=
  ((((ticks : Int) - previous_frame_time) % 2 ^ 32 : Int) : F) / 1000

/-- Line 346: the conversion of the `Uint32` tick count to `int`. -/
def ticks_to_int (ticks : Nat) : Int :=
  if (ticks : Int) % 2 ^ 32 < 2 ^ 31 then (ticks : Int) % 2 ^ 32 else (ticks : Int) % 2 ^ 32 - 2 ^ 32

/-- Line 359 applied to a mesh: `mesh->rotation.y += 0.5f * delta_time`. -/
def animate (delta_time : F) (mesh : mesh_t F) : mesh_t F :=
  { mesh with rotation := { mesh.rotation with y := mesh.rotation.y + (1 / 2) * delta_time } }

/-- Lines 354-369: the body of the loop over the meshes of the scene. An index
outside the mesh array does not occur (the loop bound is `get_num_meshes()`). -/
def update_mesh (env : Env F) (st : state F) (mesh_index : Nat) : state F :=
  match st.meshes.get? mesh_index with
  | none => st
  | some mesh =>
    let mesh := animate st.delta_time mesh
    let st := { st with meshes := st.meshes.set mesh_index mesh }
    process_graphics_pipeline_stages env mesh st

/-- Lines 337-371: `update()`. The two clock readings are those of lines 344 and
346; the reading of line 339 only feeds `SDL_Delay`, which changes no variable. -/
def update (env : Env F) (ticks_delta ticks_previous : Nat) (st : state F) : state F :=
  let st := { st with delta_time := compute_delta_time ticks_delta st.previous_frame_time }
  let st := { st with previous_frame_time := ticks_to_int ticks_previous }
  let st := { st with num_triangles_to_render := 0 }
  (List.range st.meshes.length).foldl (update_mesh env) st

/-! ## The helpers of `Matrix.h` and `Light.h` as the spec describes them -/

/-- Modelled from the spec: `mat4_identity` of `Matrix.h` (not part of
`Main.c`), the identity of "Composable via matrix multiplication; identity". -/
def mat4_identity : mat4_t F := fun i j => if i = j then 1 else 0

/-- Modelled from the spec: `mat4_mul_mat4` of `Matrix.h` (not part of
`Main.c`), the matrix product ("Composable via matrix multiplication") in exact
arithmetic. -/
def mat4_mul_mat4 (a b : mat4_t F) : mat4_t F :=
  fun i j => a i 0 * b 0 j + a i 1 * b 1 j + a i 2 * b 2 j + a i 3 * b 3 j

/-- Modelled from the spec: `mat4_mul_vec4` of `Matrix.h` (not part of
`Main.c`), the product of a matrix and a column vector. -/
def mat4_mul_vec4 (m : mat4_t F) (v : vec4_t F) : vec4_t F :=
  ⟨m 0 0 * v.x + m 0 1 * v.y + m 0 2 * v.z + m 0 3 * v.w,
   m 1 0 * v.x + m 1 1 * v.y + m 1 2 * v.z + m 1 3 * v.w,
   m 2 0 * v.x + m 2 1 * v.y + m 2 2 * v.z + m 2 3 * v.w,
   m 3 0 * v.x + m 3 1 * v.y + m 3 2 * v.z + m 3 3 * v.w⟩

/-- Modelled from the spec: `mat4_mul_vec4_project` of `Matrix.h` (not part of
`Main.c`): "the projection+divide function returns (x/w, y/w, z/w, w)". At
`w = 0` the quotient of the field is 0, where the C division gives an infinity
or a NaN; no theorem below reads the quotients at `w = 0`. -/
def mat4_mul_vec4_project (m : mat4_t F) (v : vec4_t F) : vec4_t F :=
  let r := mat4_mul_vec4 m v
  ⟨r.x / r.w, r.y / r.w, r.z / r.w, r.w⟩

/-- The clamp of an intensity to `[0, 1]`: "values outside are clamped, not
wrapped". -/
def clamp01 (k : F) : F := if k < 0 then 0 else if 1 < k then 1 else k

/-- The alpha channel of a `0xAARRGGBB` colour (the layout of the literals
`0xFF000000`, `0xFFFFFFFF` and `0xFFFF0000` of `render`). -/
def color_alpha (color : Nat) : Nat := color / 2 ^ 24 % 256

/-- The red channel of a `0xAARRGGBB` colour. -/
def color_red (color : Nat) : Nat := color / 2 ^ 16 % 256

/-- The green channel of a `0xAARRGGBB` colour. -/
def color_green (color : Nat) : Nat := color / 2 ^ 8 % 256

/-- The blue channel of a `0xAARRGGBB` colour. -/
def color_blue (color : Nat) : Nat := color % 256

/-- A colour channel multiplied by a factor, converted back to an integer as C
converts a non-negative `float`: the fraction is dropped. -/
def scale_channel (channel : Nat) (k : F) : Nat := ⌊(channel : F) * k⌋₊

/-- Modelled from the spec: `light_apply_intensity` of `Light.h` (not part of
`Main.c`): the intensity is applied "multiplicatively per color channel,
clamped to [0,1] (values outside are clamped, not wrapped)". The red, green and
blue channels are each multiplied by the clamped intensity; the alpha channel,
which is no colour, is kept. -/
def light_apply_intensity (original_color : Nat) (percentage_factor : F) : Nat :=
  color_alpha original_color * 2 ^ 24 +
    scale_channel (color_red original_color) (clamp01 percentage_factor) * 2 ^ 16 +
    scale_channel (color_green original_color) (clamp01 percentage_factor) * 2 ^ 8 +
    scale_channel (color_blue original_color) (clamp01 percentage_factor)

/-! ## The clipper of `Clipping.h` as the spec describes it -/

/-- Modelled from the spec: `vec3_sub` of `Vector.h`, the difference of two
vectors. -/
def vec3_sub (a b : vec3_t F) : vec3_t F := ⟨a.x - b.x, a.y - b.y, a.z - b.z⟩

/-- Modelled from the spec: `vec3_dot` of `Vector.h`, the dot product. -/
def vec3_dot (a b : vec3_t F) : F := a.x * b.x + a.y * b.y + a.z * b.z

/-- Modelled from the spec: a frustum plane of `Clipping.h`, "each
`{point, normal}`". -/
structure plane_t (F : Type) where
  point : vec3_t F
  normal : vec3_t F

/-- The signed distance of a vertex to a plane: "`dot(normal, vertex - point)`". -/
def plane_distance (plane : plane_t F) (v : vec3_t F) : F :=
  vec3_dot plane.normal (vec3_sub v plane.point)

/-- Linear interpolation by `t`. -/
def float_lerp (a b t : F) : F := a + t * (b - a)

/-- The vertex where an edge crosses the plane:
"`t = dist(curr) / (dist(curr) - dist(next))`", position and UV interpolated
by `t`. -/
def clip_intersection (plane : plane_t F) (current next : vec3_t F × tex2_t F) :
    vec3_t F × tex2_t F :=
  let t := plane_distance plane current.1 /
    (plane_distance plane current.1 - plane_distance plane next.1)
  (⟨float_lerp current.1.x next.1.x t, float_lerp current.1.y next.1.y t,
      float_lerp current.1.z next.1.z t⟩,
    ⟨float_lerp current.2.u next.2.u t, float_lerp current.2.v next.2.v t⟩)

/-- One edge of the Sutherland-Hodgman clip: "keep vertices with distance ≥ 0;
when the edge crosses the plane (signs differ) ... inserting the new vertex". -/
def clip_edge (plane : plane_t F) (current next : vec3_t F × tex2_t F) :
    List (vec3_t F × tex2_t F) :=
  (if 0 ≤ plane_distance plane current.1 then [current] else []) ++
    (if plane_distance plane current.1 * plane_distance plane next.1 < 0 then
      [clip_intersection plane current next] else [])

/-- Modelled from the spec: `clipPolygon(polygon, plane)` of `Clipping.h`, the
clip of a polygon against one plane, "for each edge (current vertex, next
vertex, wrapping)". -/
def clip_polygon_against_plane (plane : plane_t F) (vs : List (vec3_t F × tex2_t F)) :
    List (vec3_t F × tex2_t F) :=
  (vs.zip (vs.drop 1 ++ vs.take 1)).flatMap fun e => clip_edge plane e.1 e.2

/-- The near plane that `init_frustum_planes` makes of `z_near`: the points
with `z ≥ z_near` are inside. -/
def near_plane (z_near : F) : plane_t F := ⟨⟨0, 0, z_near⟩, ⟨0, 0, 1⟩⟩

/-- The far plane that `init_frustum_planes` makes of `z_far`: the points with
`z ≤ z_far` are inside. -/
def far_plane (z_far : F) : plane_t F := ⟨⟨0, 0, z_far⟩, ⟨0, 0, -1⟩⟩

/-- Modelled from the spec: the six planes of `init_frustum_planes` in the
order of clipping, "LEFT, RIGHT, TOP, BOTTOM, NEAR, FAR". The four side planes,
which depend on the fields of view, are parameters. -/
def frustum_planes (left right top bottom : plane_t F) (z_near z_far : F) :
    List (plane_t F) :=
  [left, right, top, bottom, near_plane z_near, far_plane z_far]

/-- Modelled from the spec: `clip_polygon` of `Clipping.h` (not part of
`Main.c`), `clipPolygonAgainstFrustum`: the polygon clipped against the planes
one after the other. A triangle clipped by six planes has at most nine
vertices, within the capacity of the polygon buffer. -/
def clip_polygon (planes : List (plane_t F)) (polygon : polygon_t F) : polygon_t F :=
  let vs := planes.foldl (fun vs plane => clip_polygon_against_plane plane vs)
    (polygon.vertices.zip polygon.texcoords)
  { vertices := vs.map Prod.fst, texcoords := vs.map Prod.snd, normal := polygon.normal }

/-- Modelled from the spec: `create_polygon_from_triangle` of `Clipping.h` (not
part of `Main.c`): the polygon of the three vertices, their UVs and the
normal. -/
def create_polygon_from_triangle (v0 v1 v2 : vec3_t F) (t0 t1 t2 : tex2_t F)
    (face_normal : vec3_t F) : polygon_t F :=
  { vertices := [v0, v1, v2], texcoords := [t0, t1, t2], normal := face_normal }

/-- The triangle of three polygon vertices, each position made a point with
`w = 1`; colour and texture are set later by the pipeline. -/
def polygon_triangle (normal : vec3_t F) (a b c : vec3_t F × tex2_t F) : triangle_t F :=
  { points := ![⟨a.1.x, a.1.y, a.1.z, 1⟩, ⟨b.1.x, b.1.y, b.1.z, 1⟩, ⟨c.1.x, c.1.y, c.1.z, 1⟩]
    texcoords := ![a.2, b.2, c.2]
    color := 0
    texture := 0
    normal := normal }

/-- Modelled from the spec: `triangles_from_polygon` of `Clipping.h` (not part
of `Main.c`), `triangulate(polygon)`: "fan-triangulation from vertex 0
(`(0,i,i+1)` for i=1..n-2)". -/
def triangles_from_polygon (polygon : polygon_t F) : List (triangle_t F) :=
  match polygon.vertices.zip polygon.texcoords with
  | [] => []
  | v0 :: rest =>
    (rest.zip (rest.drop 1)).map fun e => polygon_triangle polygon.normal v0 e.1 e.2

/-! ## The pipeline as a function of the mesh

The triangles a mesh contributes, computed without the queue: the reference
against which the stateful loops are compared. -/

/-- The queue of triangles to render: the array and its counter. -/
abbrev queue_t (F : Type) : Type := (Int → triangle_t F) × Int

/-- The queue held in the globals of lines 18-19. -/
def queue_of (st : state F) : queue_t F :=
  (st.triangles_to_render, st.num_triangles_to_render)

/-- Lines 328-332 on a queue alone. -/
def queue_push (q : queue_t F) (t : triangle_t F) : queue_t F :=
  if q.2 < MAX_TRIANGLES_PER_MESH then (Function.update q.1 q.2 t, q.2 + 1) else q

/-- A list of triangles pushed in order. -/
def queue_push_all (q : queue_t F) (ts : List (triangle_t F)) : queue_t F :=
  ts.foldl queue_push q

/-- The value of `world_matrix` after lines 212-219. -/
def world_matrix_of (env : Env F) (mm : mesh_matrices F) : mat4_t F :=
  env.mat4_mul_mat4 mm.translation_matrix
    (env.mat4_mul_mat4 mm.rotation_matrix_x
      (env.mat4_mul_mat4 mm.rotation_matrix_y
        (env.mat4_mul_mat4 mm.rotation_matrix_z
          (env.mat4_mul_mat4 mm.scale_matrix env.mat4_identity))))

/-- The value of `view_matrix` after line 190. -/
def view_matrix_of (env : Env F) : mat4_t F :=
  env.mat4_look_at env.get_camera_position env.get_camera_lookat_target (vec3_new 0 1 0)

/-- The camera-space vertex of a model-space vertex (lines 209-225). -/
def camera_vertex (env : Env F) (mm : mesh_matrices F) (view : mat4_t F) (v : vec3_t F) :
    vec4_t F :=
  env.mat4_mul_vec4 view (env.mat4_mul_vec4 (world_matrix_of env mm) (env.vec4_from_vec3 v))

/-- The three camera-space vertices of a face (`transformed_vertices`). -/
def camera_space (env : Env F) (mm : mesh_matrices F) (view : mat4_t F) (mesh : mesh_t F)
    (mesh_face : face_t F) : Fin 3 → vec4_t F :=
  ![camera_vertex env mm view (face_vertices mesh mesh_face 0),
    camera_vertex env mm view (face_vertices mesh mesh_face 1),
    camera_vertex env mm view (face_vertices mesh mesh_face 2)]

/-- The face normal of line 234. -/
def face_normal_of (env : Env F) (mm : mesh_matrices F) (view : mat4_t F) (mesh : mesh_t F)
    (mesh_face : face_t F) : vec3_t F :=
  env.get_triangle_normal (camera_space env mm view mesh mesh_face)

/-- The value `dot_normal_camera` of line 244 for a face. -/
def dot_normal_camera_of (env : Env F) (mm : mesh_matrices F) (view : mat4_t F)
    (mesh : mesh_t F) (mesh_face : face_t F) : F :=
  env.vec3_dot
    (env.vec3_sub (vec3_new 0 0 0) (env.vec3_from_vec4 (camera_space env mm view mesh mesh_face 0)))
    (face_normal_of env mm view mesh mesh_face)

/-- The triangles that clipping and triangulation return for a face, none for a
face that the backface test rejects. -/
def face_clipped (env : Env F) (mm : mesh_matrices F) (view : mat4_t F) (mesh : mesh_t F)
    (mesh_face : face_t F) : List (triangle_t F) :=
  if backface_culled env (camera_space env mm view mesh mesh_face)
      (face_normal_of env mm view mesh mesh_face) then []
  else clip_face env mesh_face (camera_space env mm view mesh mesh_face)
      (face_normal_of env mm view mesh mesh_face)

/-- The render-ready triangles of a face, in triangulation order. -/
def face_output (env : Env F) (mm : mesh_matrices F) (proj view : mat4_t F) (mesh : mesh_t F)
    (mesh_face : face_t F) : List (triangle_t F) :=
  (face_clipped env mm view mesh mesh_face).map
    (make_triangle_to_render env proj mesh mesh_face (face_normal_of env mm view mesh mesh_face))

/-- The clipped triangles of a mesh, each with its face: faces in mesh order,
then triangles in triangulation order. -/
def mesh_clipped (env : Env F) (mesh : mesh_t F) : List (face_t F × triangle_t F) :=
  mesh.faces.flatMap fun mesh_face =>
    (face_clipped env (make_mesh_matrices env mesh) (view_matrix_of env) mesh mesh_face).map
      fun t => (mesh_face, t)

/-- The render-ready triangles of a mesh, in the order the pipeline makes them. -/
def mesh_output (env : Env F) (proj : mat4_t F) (mesh : mesh_t F) : List (triangle_t F) :=
  mesh.faces.flatMap
    (face_output env (make_mesh_matrices env mesh) proj (view_matrix_of env) mesh)

/-- The environment with another `triangles_from_polygon`. -/
def with_triangulation (env : Env F) (tfp : polygon_t F → List (triangle_t F)) : Env F :=
  { env with triangles_from_polygon := tfp }

/-- A list of render-ready triangles stored in order (lines 328-332 repeated). -/
def save_all (st : state F) (ts : List (triangle_t F)) : state F :=
  ts.foldl save_triangle st

/-- The globals other than the queue and `world_matrix` agree in two states. -/
def same_frame (s s' : state F) : Prop :=
  s'.proj_matrix = s.proj_matrix ∧ s'.view_matrix = s.view_matrix ∧ s'.meshes = s.meshes ∧
    s'.delta_time = s.delta_time ∧ s'.previous_frame_time = s.previous_frame_time

/-- The product `translate * rotateX * rotateY * rotateZ * scale` of the five
matrices of a mesh, as a matrix product. -/
def trs_product (mm : mesh_matrices F) : mat4_t F :=
  mat4_mul_mat4
    (mat4_mul_mat4
      (mat4_mul_mat4 (mat4_mul_mat4 mm.translation_matrix mm.rotation_matrix_x)
        mm.rotation_matrix_y)
      mm.rotation_matrix_z)
    mm.scale_matrix

/-! ## A concrete scene over `ℚ`

One triangle in front of a camera at the origin that looks down `+z`, in an
800 by 600 window. The helpers are the ones modelled above where the spec
describes them: the clipper is the Sutherland-Hodgman clipper with the near
plane at `z_near = 1` and the far plane at `z_far = 100` of `setup`, and side
planes of rational unit normals (half angle `atan (3/4)`). The rotation and
look-at matrices are the identity (no rotation, camera at the origin). -/

/-- The frustum of the concrete scene. -/
def demo_frustum : List (plane_t ℚ) :=
  frustum_planes ⟨⟨0, 0, 0⟩, ⟨4 / 5, 0, 3 / 5⟩⟩ ⟨⟨0, 0, 0⟩, ⟨-4 / 5, 0, 3 / 5⟩⟩
    ⟨⟨0, 0, 0⟩, ⟨0, -4 / 5, 3 / 5⟩⟩ ⟨⟨0, 0, 0⟩, ⟨0, 4 / 5, 3 / 5⟩⟩ 1 100

/-- The scale matrix `diag(sx, sy, sz, 1)`. -/
def demo_make_scale (sx sy sz : ℚ) : mat4_t ℚ :=
  fun i j => if i = j then ![sx, sy, sz, 1] i else 0

/-- The translation matrix: the identity with `(tx, ty, tz)` in the last column. -/
def demo_make_translation (tx ty tz : ℚ) : mat4_t ℚ :=
  fun i j => if i = j then 1 else if j = 3 then ![tx, ty, tz, 1] i else 0

/-- The cross product of the two edges from the first vertex (not normalised). -/
def demo_triangle_normal (v : Fin 3 → vec4_t ℚ) : vec3_t ℚ :=
  let ax := (v 1).x - (v 0).x
  let ay := (v 1).y - (v 0).y
  let az := (v 1).z - (v 0).z
  let bx := (v 2).x - (v 0).x
  let b_y := (v 2).y - (v 0).y
  let bz := (v 2).z - (v 0).z
  ⟨ay * bz - az * b_y, az * bx - ax * bz, ax * b_y - ay * bx⟩

/-- The environment of the concrete scene. -/
def demo_env : Env ℚ :=
  { get_window_width := 800
    get_window_height := 600
    is_cull_backface := true
    get_camera_position := ⟨0, 0, 0⟩
    get_camera_lookat_target := ⟨0, 0, 1⟩
    get_light_direction := ⟨0, 0, 1⟩
    light_apply_intensity := light_apply_intensity
    mat4_identity := mat4_identity
    mat4_make_scale := demo_make_scale
    mat4_make_translation := demo_make_translation
    mat4_make_rotation_x := fun _ => mat4_identity
    mat4_make_rotation_y := fun _ => mat4_identity
    mat4_make_rotation_z := fun _ => mat4_identity
    mat4_mul_mat4 := mat4_mul_mat4
    mat4_mul_vec4 := mat4_mul_vec4
    mat4_mul_vec4_project := mat4_mul_vec4_project
    mat4_look_at := fun _ _ _ => mat4_identity
    vec4_from_vec3 := fun v => ⟨v.x, v.y, v.z, 1⟩
    vec3_from_vec4 := fun v => ⟨v.x, v.y, v.z⟩
    vec3_sub := vec3_sub
    vec3_dot := vec3_dot
    get_triangle_normal := demo_triangle_normal
    create_polygon_from_triangle := create_polygon_from_triangle
    clip_polygon := clip_polygon demo_frustum
    triangles_from_polygon := triangles_from_polygon }

/-- A face over the vertices 0, 1, 2, white. -/
def demo_face : face_t ℚ :=
  { a := 0, b := 1, c := 2, a_uv := ⟨0, 0⟩, b_uv := ⟨0, 1⟩, c_uv := ⟨1, 1⟩,
    color := 0xFFFFFFFF, face_normal := ⟨0, 0, 0⟩ }

/-- A mesh of one triangle at depth `z`, facing the camera. -/
def demo_mesh_at (z : ℚ) : mesh_t ℚ :=
  { vertices := [⟨-1, -1, z⟩, ⟨-1, 1, z⟩, ⟨1, 1, z⟩]
    faces := [demo_face]
    texture := 7
    scale := ⟨1, 1, 1⟩
    rotation := ⟨0, 0, 0⟩
    translation := ⟨0, 0, 0⟩ }

/-- The mesh of the concrete scene, five units in front of the camera. -/
def demo_mesh : mesh_t ℚ := demo_mesh_at 5

/-- A projection matrix that copies `z` into `w`: the identity with the last
row replaced by `(0, 0, 1, 0)`. -/
def demo_proj_matrix : mat4_t ℚ :=
  fun i j => if i = 3 then (if j = 2 then 1 else 0) else if i = j then 1 else 0

/-- A triangle with every field zero. -/
def zero_triangle : triangle_t ℚ :=
  { points := fun _ => ⟨0, 0, 0, 0⟩, texcoords := fun _ => ⟨0, 0⟩, color := 0, texture := 0,
    normal := ⟨0, 0, 0⟩ }

/-- The globals before the first frame, with the given meshes loaded. -/
def demo_state_with (meshes : List (mesh_t ℚ)) : state ℚ :=
  { triangles_to_render := fun _ => zero_triangle
    num_triangles_to_render := 0
    previous_frame_time := 0
    delta_time := 0
    world_matrix := mat4_identity
    proj_matrix := demo_proj_matrix
    view_matrix := mat4_identity
    meshes := meshes }

/-- The globals of the concrete scene before the first frame. -/
def demo_state : state ℚ := demo_state_with [demo_mesh]

/-- The triangle that clipping and triangulation return for the face of a mesh
at depth `z` inside the frustum. -/
def demo_clipped_triangle (z : ℚ) : triangle_t ℚ :=
  ⟨![⟨-1, -1, z, 1⟩, ⟨-1, 1, z, 1⟩, ⟨1, 1, z, 1⟩], ![⟨0, 0⟩, ⟨0, 1⟩, ⟨1, 1⟩], 0, 0, ⟨0, 0, -4⟩⟩

/-- The globals of the concrete scene with a stale queue of five entries left
by an earlier frame. -/
def demo_state_stale : state ℚ :=
  { demo_state with
    triangles_to_render := fun _ => demo_clipped_triangle 9
    num_triangles_to_render := 5 }

/-! ## Lemmas on the queue -/

theorem queue_of_save_triangle (st : state F) (t : triangle_t F) :
    queue_of (save_triangle st t) = queue_push (queue_of st) t := by
  unfold save_triangle queue_push queue_of
  by_cases h : st.num_triangles_to_render < MAX_TRIANGLES_PER_MESH <;> simp [h]

theorem save_triangle_frame (st : state F) (t : triangle_t F) :
    same_frame st (save_triangle st t) ∧
      (save_triangle st t).world_matrix = st.world_matrix := by
  unfold save_triangle same_frame
  by_cases h : st.num_triangles_to_render < MAX_TRIANGLES_PER_MESH <;> simp [h]

theorem same_frame_refl (s : state F) : same_frame s s :=
  ⟨rfl, rfl, rfl, rfl, rfl⟩

theorem same_frame_trans {s1 s2 s3 : state F} (h12 : same_frame s1 s2)
    (h23 : same_frame s2 s3) : same_frame s1 s3 := by
  obtain ⟨a1, a2, a3, a4, a5⟩ := h12
  obtain ⟨b1, b2, b3, b4, b5⟩ := h23
  exact ⟨b1.trans a1, b2.trans a2, b3.trans a3, b4.trans a4, b5.trans a5⟩

theorem save_all_spec (ts : List (triangle_t F)) (st : state F) :
    queue_of (save_all st ts) = queue_push_all (queue_of st) ts ∧
      same_frame st (save_all st ts) ∧ (save_all st ts).world_matrix = st.world_matrix := by
  induction ts generalizing st with
  | nil => exact ⟨rfl, same_frame_refl st, rfl⟩
  | cons t ts ih =>
    obtain ⟨hq, hf, hw⟩ := ih (save_triangle st t)
    obtain ⟨hf0, hw0⟩ := save_triangle_frame st t
    refine ⟨?_, same_frame_trans hf0 hf, hw.trans hw0⟩
    simp only [save_all, List.foldl_cons] at hq ⊢
    rw [hq, queue_of_save_triangle]
    rfl

theorem clip_and_save_eq (env : Env F) (mesh : mesh_t F) (mesh_face : face_t F)
    (tv : Fin 3 → vec4_t F) (n : vec3_t F) (st : state F) :
    clip_and_save env mesh mesh_face tv n st =
      save_all st ((clip_face env mesh_face tv n).map
        (make_triangle_to_render env st.proj_matrix mesh mesh_face n)) := by
  unfold clip_and_save save_all
  generalize clip_face env mesh_face tv n = ts
  induction ts generalizing st with
  | nil => rfl
  | cons t ts ih =>
    simp only [List.foldl_cons, List.map_cons]
    rw [ih]
    rw [(save_triangle_frame st _).1.1]

theorem transform_face_eq (env : Env F) (mm : mesh_matrices F) (st : state F)
    (mesh : mesh_t F) (mesh_face : face_t F) :
    transform_face env mm st (face_vertices mesh mesh_face) =
      ({ st with world_matrix := world_matrix_of env mm },
        camera_space env mm st.view_matrix mesh mesh_face) := rfl

theorem process_face_eq (env : Env F) (mm : mesh_matrices F) (mesh : mesh_t F)
    (st : state F) (mesh_face : face_t F) :
    process_face env mm mesh st mesh_face =
      save_all { st with world_matrix := world_matrix_of env mm }
        (face_output env mm st.proj_matrix st.view_matrix mesh mesh_face) := by
  unfold process_face face_output face_clipped face_normal_of
  rw [transform_face_eq]
  by_cases h : backface_culled env (camera_space env mm st.view_matrix mesh mesh_face)
      (env.get_triangle_normal (camera_space env mm st.view_matrix mesh mesh_face)) = true
  · simp [h, save_all]
  · simp only [h, if_false, Bool.false_eq_true]
    rw [clip_and_save_eq]

theorem process_face_spec (env : Env F) (mm : mesh_matrices F) (mesh : mesh_t F)
    (st : state F) (mesh_face : face_t F) :
    queue_of (process_face env mm mesh st mesh_face) =
        queue_push_all (queue_of st)
          (face_output env mm st.proj_matrix st.view_matrix mesh mesh_face) ∧
      same_frame st (process_face env mm mesh st mesh_face) ∧
      (process_face env mm mesh st mesh_face).world_matrix = world_matrix_of env mm := by
  rw [process_face_eq]
  obtain ⟨hq, hf, hw⟩ := save_all_spec
    (face_output env mm st.proj_matrix st.view_matrix mesh mesh_face)
    { st with world_matrix := world_matrix_of env mm }
  exact ⟨hq, hf, hw⟩

theorem queue_push_all_append (q : queue_t F) (a b : List (triangle_t F)) :
    queue_push_all q (a ++ b) = queue_push_all (queue_push_all q a) b := by
  simp [queue_push_all, List.foldl_append]

theorem faces_loop_spec (env : Env F) (mm : mesh_matrices F) (mesh : mesh_t F)
    (faces : List (face_t F)) (st : state F) :
    queue_of (faces.foldl (process_face env mm mesh) st) =
        queue_push_all (queue_of st)
          (faces.flatMap (face_output env mm st.proj_matrix st.view_matrix mesh)) ∧
      same_frame st (faces.foldl (process_face env mm mesh) st) := by
  induction faces generalizing st with
  | nil => exact ⟨rfl, same_frame_refl st⟩
  | cons f fs ih =>
    obtain ⟨hq, hf, _⟩ := process_face_spec env mm mesh st f
    obtain ⟨hq2, hf2⟩ := ih (process_face env mm mesh st f)
    refine ⟨?_, same_frame_trans hf hf2⟩
    simp only [List.foldl_cons, List.flatMap_cons]
    rw [hq2, hq, queue_push_all_append, hf.1, hf.2.1]

theorem pipeline_spec (env : Env F) (mesh : mesh_t F) (st : state F) :
    queue_of (process_graphics_pipeline_stages env mesh st) =
        queue_push_all (queue_of st) (mesh_output env st.proj_matrix mesh) ∧
      (process_graphics_pipeline_stages env mesh st).proj_matrix = st.proj_matrix ∧
      (process_graphics_pipeline_stages env mesh st).meshes = st.meshes ∧
      (process_graphics_pipeline_stages env mesh st).delta_time = st.delta_time ∧
      (process_graphics_pipeline_stages env mesh st).previous_frame_time =
        st.previous_frame_time ∧
      (process_graphics_pipeline_stages env mesh st).view_matrix = view_matrix_of env := by
  obtain ⟨hq, h1, h2, h3, h4, h5⟩ := faces_loop_spec env (make_mesh_matrices env mesh) mesh
    mesh.faces { st with view_matrix := view_matrix_of env }
  exact ⟨hq, h1, h3, h4, h5, h2⟩

theorem queue_push_all_cons (q : queue_t F) (t : triangle_t F) (ts : List (triangle_t F)) :
    queue_push_all q (t :: ts) = queue_push_all (queue_push q t) ts := rfl

theorem queue_push_all_full (ts : List (triangle_t F)) (q : queue_t F)
    (h : MAX_TRIANGLES_PER_MESH ≤ q.2) : queue_push_all q ts = q := by
  induction ts with
  | nil => rfl
  | cons t ts ih =>
    rw [queue_push_all_cons]
    have : queue_push q t = q := by
      unfold queue_push
      rw [if_neg (not_lt.mpr h)]
    rw [this, ih]

theorem queue_push_all_mono (ts : List (triangle_t F)) (q : queue_t F) :
    q.2 ≤ (queue_push_all q ts).2 := by
  induction ts generalizing q with
  | nil => exact le_refl _
  | cons t ts ih =>
    rw [queue_push_all_cons]
    refine le_trans ?_ (ih (queue_push q t))
    unfold queue_push
    by_cases h : q.2 < MAX_TRIANGLES_PER_MESH
    · rw [if_pos h]
      show q.2 ≤ q.2 + 1
      omega
    · rw [if_neg h]

theorem queue_push_all_count (ts : List (triangle_t F)) (q : queue_t F)
    (h : q.2 ≤ MAX_TRIANGLES_PER_MESH) :
    (queue_push_all q ts).2 = min (q.2 + (ts.length : Int)) MAX_TRIANGLES_PER_MESH := by
  induction ts generalizing q with
  | nil => simp [queue_push_all, h]
  | cons t ts ih =>
    rw [queue_push_all_cons]
    by_cases hlt : q.2 < MAX_TRIANGLES_PER_MESH
    · have hp : queue_push q t = (Function.update q.1 q.2 t, q.2 + 1) := by
        unfold queue_push
        rw [if_pos hlt]
      rw [hp, ih _ (by show q.2 + 1 ≤ MAX_TRIANGLES_PER_MESH; omega)]
      simp only [List.length_cons, Nat.cast_add, Nat.cast_one]
      congr 1
      omega
    · have hp : queue_push q t = q := by
        unfold queue_push
        rw [if_neg hlt]
      rw [hp, ih _ h]
      simp only [List.length_cons, Nat.cast_add, Nat.cast_one]
      omega

theorem queue_push_all_outside (ts : List (triangle_t F)) (q : queue_t F) (i : Int)
    (h : i < q.2 ∨ (queue_push_all q ts).2 ≤ i) : (queue_push_all q ts).1 i = q.1 i := by
  induction ts generalizing q with
  | nil => rfl
  | cons t ts ih =>
    rw [queue_push_all_cons] at h ⊢
    by_cases hlt : q.2 < MAX_TRIANGLES_PER_MESH
    · have hp : queue_push q t = (Function.update q.1 q.2 t, q.2 + 1) := by
        unfold queue_push
        rw [if_pos hlt]
      have hm := queue_push_all_mono ts (queue_push q t)
      rw [hp] at h hm ⊢
      have hne : i ≠ q.2 := by
        rcases h with h | h
        · omega
        · have : q.2 + 1 ≤ i := le_trans hm h
          omega
      rw [ih _ (by
        rcases h with h | h
        · left
          show i < q.2 + 1
          omega
        · right
          exact h)]
      exact Function.update_noteq hne _ _
    · have hp : queue_push q t = q := by
        unfold queue_push
        rw [if_neg hlt]
      rw [hp] at h ⊢
      exact ih _ h

theorem queue_push_all_entry (ts : List (triangle_t F)) (q : queue_t F) (k : Nat)
    (t : triangle_t F) (hk : ts[k]? = some t) (h : q.2 + (k : Int) < MAX_TRIANGLES_PER_MESH) :
    (queue_push_all q ts).1 (q.2 + (k : Int)) = t := by
  induction ts generalizing q k with
  | nil => simp at hk
  | cons t0 ts ih =>
    rw [queue_push_all_cons]
    have hlt : q.2 < MAX_TRIANGLES_PER_MESH := by omega
    have hp : queue_push q t0 = (Function.update q.1 q.2 t0, q.2 + 1) := by
      unfold queue_push
      rw [if_pos hlt]
    rw [hp]
    cases k with
    | zero =>
      simp only [List.getElem?_cons_zero, Option.some.injEq] at hk
      have e0 : q.2 + ((0 : Nat) : Int) = q.2 := by simp
      rw [e0, queue_push_all_outside ts _ _ (by
        left
        show q.2 < q.2 + 1
        omega), hk]
      exact Function.update_same _ _ _
    | succ k =>
      simp only [List.getElem?_cons_succ] at hk
      have := ih (Function.update q.1 q.2 t0, q.2 + 1) k hk (by
        show q.2 + 1 + (k : Int) < MAX_TRIANGLES_PER_MESH
        push_cast at h
        omega)
      have e : q.2 + ((k + 1 : Nat) : Int) = q.2 + 1 + (k : Int) := by
        push_cast
        omega
      rw [e]
      exact this

/-! ## Lemmas on `update` -/

theorem update_mesh_spec (env : Env F) (st : state F) (n : Nat) (mesh : mesh_t F)
    (h : st.meshes.get? n = some mesh) :
    queue_of (update_mesh env st n) =
        queue_push_all (queue_of st)
          (mesh_output env st.proj_matrix (animate st.delta_time mesh)) ∧
      (update_mesh env st n).meshes = st.meshes.set n (animate st.delta_time mesh) ∧
      (update_mesh env st n).proj_matrix = st.proj_matrix ∧
      (update_mesh env st n).delta_time = st.delta_time ∧
      (update_mesh env st n).previous_frame_time = st.previous_frame_time := by
  unfold update_mesh
  rw [h]
  obtain ⟨hq, h1, h2, h3, h4, _⟩ := pipeline_spec env (animate st.delta_time mesh)
    { st with meshes := st.meshes.set n (animate st.delta_time mesh) }
  exact ⟨hq, h2, h1, h3, h4⟩

theorem list_get_middle {α : Type} (A : List α) (m : α) (B : List α) (n : Nat)
    (h : A.length = n) : (A ++ m :: B).get? n = some m := by
  subst h
  induction A with
  | nil => rfl
  | cons a A ih => simpa using ih

theorem list_set_middle {α : Type} (A : List α) (m m' : α) (B : List α) (n : Nat)
    (h : A.length = n) : (A ++ m :: B).set n m' = A ++ m' :: B := by
  subst h
  induction A with
  | nil => rfl
  | cons a A ih => simp

theorem update_loop_spec (env : Env F) (st0 : state F) (n : Nat)
    (hn : n ≤ st0.meshes.length) :
    queue_of ((List.range n).foldl (update_mesh env) st0) =
        queue_push_all (queue_of st0)
          (((st0.meshes.take n).map (animate st0.delta_time)).flatMap
            (mesh_output env st0.proj_matrix)) ∧
      ((List.range n).foldl (update_mesh env) st0).meshes =
        (st0.meshes.take n).map (animate st0.delta_time) ++ st0.meshes.drop n ∧
      ((List.range n).foldl (update_mesh env) st0).proj_matrix = st0.proj_matrix ∧
      ((List.range n).foldl (update_mesh env) st0).delta_time = st0.delta_time ∧
      ((List.range n).foldl (update_mesh env) st0).previous_frame_time =
        st0.previous_frame_time := by
  induction n with
  | zero => simp [queue_push_all]
  | succ n ih =>
    obtain ⟨hq, hm, hp, hd, ht⟩ := ih (by omega)
    have hlt : n < st0.meshes.length := by omega
    rw [List.range_succ, List.foldl_append, List.foldl_cons, List.foldl_nil]
    generalize (List.range n).foldl (update_mesh env) st0 = s at hq hm hp hd ht ⊢
    have hlen : ((st0.meshes.take n).map (animate st0.delta_time)).length = n := by
      rw [List.length_map, List.length_take]
      exact Nat.min_eq_left (Nat.le_of_lt hlt)
    have hdrop : st0.meshes.drop n = st0.meshes[n] :: st0.meshes.drop (n + 1) :=
      List.drop_eq_getElem_cons hlt
    have htake : st0.meshes.take (n + 1) = st0.meshes.take n ++ [st0.meshes[n]] := by
      rw [List.take_succ, List.getElem?_eq_getElem hlt]
      rfl
    rw [hdrop] at hm
    have hget : s.meshes.get? n = some st0.meshes[n] := by
      rw [hm]
      exact list_get_middle _ _ _ n hlen
    obtain ⟨uq, um, up, ud, ut⟩ := update_mesh_spec env s n _ hget
    refine ⟨?_, ?_, up.trans hp, ud.trans hd, ut.trans ht⟩
    · rw [uq, hq, hp, hd, ← queue_push_all_append, htake]
      simp only [List.map_append, List.flatMap_append, List.map_cons, List.map_nil,
        List.flatMap_cons, List.flatMap_nil, List.append_nil]
    · rw [um, hm, hd, list_set_middle _ _ _ _ n hlen, htake]
      simp only [List.map_append, List.map_cons, List.map_nil, List.append_assoc,
        List.singleton_append]

theorem update_spec (env : Env F) (ticks_delta ticks_previous : Nat) (st : state F) :
    queue_of (update env ticks_delta ticks_previous st) =
        queue_push_all (st.triangles_to_render, 0)
          ((st.meshes.map
            (animate (compute_delta_time ticks_delta st.previous_frame_time))).flatMap
            (mesh_output env st.proj_matrix)) ∧
      (update env ticks_delta ticks_previous st).meshes =
        st.meshes.map (animate (compute_delta_time ticks_delta st.previous_frame_time)) ∧
      (update env ticks_delta ticks_previous st).delta_time =
        compute_delta_time ticks_delta st.previous_frame_time ∧
      (update env ticks_delta ticks_previous st).previous_frame_time =
        ticks_to_int ticks_previous ∧
      (update env ticks_delta ticks_previous st).proj_matrix = st.proj_matrix := by
  have h := update_loop_spec env
    { st with
      delta_time := compute_delta_time ticks_delta st.previous_frame_time
      previous_frame_time := ticks_to_int ticks_previous
      num_triangles_to_render := 0 } st.meshes.length (le_refl _)
  rw [List.take_length, List.drop_length, List.append_nil] at h
  obtain ⟨hq, hm, hp, hd, ht⟩ := h
  dsimp only [queue_of] at hq hm hp hd ht
  dsimp only [update, queue_of]
  exact ⟨hq, hm, hd, ht, hp⟩

/-! ## Backface culling -/

theorem backface_culled_iff (env : Env F) (tv : Fin 3 → vec4_t F) (n : vec3_t F) :
    backface_culled env tv n = true ↔
      (env.is_cull_backface = true ∧
        env.vec3_dot (env.vec3_sub (vec3_new 0 0 0) (env.vec3_from_vec4 (tv 0))) n < 0) := by
  unfold backface_culled
  by_cases hc : env.is_cull_backface = true
  · by_cases hd :
      env.vec3_dot (env.vec3_sub (vec3_new 0 0 0) (env.vec3_from_vec4 (tv 0))) n < 0 <;>
      simp [hc, hd]
  · simp [hc]

theorem queue_push_room (q : queue_t F) (t : triangle_t F)
    (h : q.2 < MAX_TRIANGLES_PER_MESH) :
    queue_push q t = (Function.update q.1 q.2 t, q.2 + 1) := by
  unfold queue_push
  rw [if_pos h]

/-- C1: the face is skipped before clipping (whatever clipping and
triangulation would return, the queue is left as it was) if and only if
backface culling is enabled and `dot((0,0,0) - v0, n) < 0`; a skipped face adds
no triangle; with culling disabled, and with culling enabled and `dot = 0`, the
face goes to clipping and its triangles are queued. -/
theorem backface_test_skips_iff (env : Env F) (mm : mesh_matrices F) (mesh : mesh_t F)
    (st : state F) (mesh_face : face_t F)
    (hroom : st.num_triangles_to_render < MAX_TRIANGLES_PER_MESH) :
    ((∀ tfp : polygon_t F → List (triangle_t F),
        queue_of (process_face (with_triangulation env tfp) mm mesh st mesh_face) =
          queue_of st) ↔
      (env.is_cull_backface = true ∧
        env.vec3_dot
          (env.vec3_sub (vec3_new 0 0 0)
            (env.vec3_from_vec4 (camera_space env mm st.view_matrix mesh mesh_face 0)))
          (env.get_triangle_normal (camera_space env mm st.view_matrix mesh mesh_face)) < 0)) ∧
    ((env.is_cull_backface = true ∧
        env.vec3_dot
          (env.vec3_sub (vec3_new 0 0 0)
            (env.vec3_from_vec4 (camera_space env mm st.view_matrix mesh mesh_face 0)))
          (env.get_triangle_normal (camera_space env mm st.view_matrix mesh mesh_face)) < 0) →
      queue_of (process_face env mm mesh st mesh_face) = queue_of st) ∧
    (env.is_cull_backface = false →
      queue_of (process_face env mm mesh st mesh_face) =
        queue_push_all (queue_of st)
          ((clip_face env mesh_face (camera_space env mm st.view_matrix mesh mesh_face)
              (env.get_triangle_normal (camera_space env mm st.view_matrix mesh mesh_face))).map
            (make_triangle_to_render env st.proj_matrix mesh mesh_face
              (env.get_triangle_normal (camera_space env mm st.view_matrix mesh mesh_face))))) ∧
    (env.is_cull_backface = true →
      env.vec3_dot
          (env.vec3_sub (vec3_new 0 0 0)
            (env.vec3_from_vec4 (camera_space env mm st.view_matrix mesh mesh_face 0)))
          (env.get_triangle_normal (camera_space env mm st.view_matrix mesh mesh_face)) = 0 →
      queue_of (process_face env mm mesh st mesh_face) =
        queue_push_all (queue_of st)
          ((clip_face env mesh_face (camera_space env mm st.view_matrix mesh mesh_face)
              (env.get_triangle_normal (camera_space env mm st.view_matrix mesh mesh_face))).map
            (make_triangle_to_render env st.proj_matrix mesh mesh_face
              (env.get_triangle_normal (camera_space env mm st.view_matrix mesh mesh_face))))) := by
  have hkeep : ∀ e : Env F,
      backface_culled e (camera_space e mm st.view_matrix mesh mesh_face)
        (e.get_triangle_normal (camera_space e mm st.view_matrix mesh mesh_face)) = false →
      queue_of (process_face e mm mesh st mesh_face) =
        queue_push_all (queue_of st)
          ((clip_face e mesh_face (camera_space e mm st.view_matrix mesh mesh_face)
              (e.get_triangle_normal (camera_space e mm st.view_matrix mesh mesh_face))).map
            (make_triangle_to_render e st.proj_matrix mesh mesh_face
              (e.get_triangle_normal (camera_space e mm st.view_matrix mesh mesh_face)))) := by
    intro e he
    rw [(process_face_spec e mm mesh st mesh_face).1]
    unfold face_output face_clipped face_normal_of
    rw [he]
    rfl
  have hskip : ∀ e : Env F,
      backface_culled e (camera_space e mm st.view_matrix mesh mesh_face)
        (e.get_triangle_normal (camera_space e mm st.view_matrix mesh mesh_face)) = true →
      queue_of (process_face e mm mesh st mesh_face) = queue_of st := by
    intro e he
    rw [(process_face_spec e mm mesh st mesh_face).1]
    unfold face_output face_clipped face_normal_of
    rw [he]
    rfl
  refine ⟨⟨?_, ?_⟩, ?_, ?_, ?_⟩
  · intro hall
    by_contra hnot
    rw [← backface_culled_iff] at hnot
    have hfalse := Bool.eq_false_iff.mpr hnot
    have h1 := hall (fun _ => [st.triangles_to_render 0])
    rw [hkeep (with_triangulation env fun _ => [st.triangles_to_render 0]) hfalse] at h1
    have h2 := congrArg Prod.snd h1
    simp only [clip_face, with_triangulation, List.map_cons, List.map_nil, queue_push_all,
      List.foldl_cons, List.foldl_nil] at h2
    rw [queue_push_room _ _ hroom] at h2
    simp only [queue_of] at h2
    omega
  · intro hc tfp
    exact hskip (with_triangulation env tfp) ((backface_culled_iff env _ _).mpr hc)
  · intro hc
    exact hskip env ((backface_culled_iff env _ _).mpr hc)
  · intro hoff
    apply hkeep env
    unfold backface_culled
    simp [hoff]
  · intro _ hzero
    apply hkeep env
    apply Bool.eq_false_iff.mpr
    rw [Ne, backface_culled_iff, hzero]
    simp

/-- C1 at the concrete scene: the face that looks at the camera is not skipped. -/
theorem backface_test_skips_iff_witness :
    (∀ tfp : polygon_t ℚ → List (triangle_t ℚ),
        queue_of (process_face (with_triangulation demo_env tfp) (make_mesh_matrices demo_env demo_mesh)
          demo_mesh demo_state demo_face) = queue_of demo_state) ↔
      (demo_env.is_cull_backface = true ∧
        demo_env.vec3_dot
          (demo_env.vec3_sub (vec3_new 0 0 0)
            (demo_env.vec3_from_vec4
              (camera_space demo_env (make_mesh_matrices demo_env demo_mesh)
                demo_state.view_matrix demo_mesh demo_face 0)))
          (demo_env.get_triangle_normal
            (camera_space demo_env (make_mesh_matrices demo_env demo_mesh)
              demo_state.view_matrix demo_mesh demo_face)) < 0) :=
  (backface_test_skips_iff demo_env (make_mesh_matrices demo_env demo_mesh) demo_mesh demo_state
    demo_face (by decide)).1

/-! ## The queue is bounded and append-only -/

theorem pipeline_queue (env : Env F) (mesh : mesh_t F) (st : state F) :
    (process_graphics_pipeline_stages env mesh st).triangles_to_render =
        (queue_push_all (queue_of st) (mesh_output env st.proj_matrix mesh)).1 ∧
      (process_graphics_pipeline_stages env mesh st).num_triangles_to_render =
        (queue_push_all (queue_of st) (mesh_output env st.proj_matrix mesh)).2 := by
  have h := (pipeline_spec env mesh st).1
  exact ⟨congrArg Prod.fst h, congrArg Prod.snd h⟩

/-- C2: from a count within `[0, 10000]`, `process_graphics_pipeline_stages`
leaves the count within `[0, 10000]` and not smaller, and every entry below the
starting count as it was; at a count of 10000 a produced triangle is dropped
(`save_triangle` returns the state unchanged) and the whole call leaves the
count and every stored entry unchanged. -/
theorem queue_bounded_append_only (env : Env F) (mesh : mesh_t F) (st : state F)
    (h0 : 0 ≤ st.num_triangles_to_render) (h1 : st.num_triangles_to_render ≤ 10000) :
    0 ≤ (process_graphics_pipeline_stages env mesh st).num_triangles_to_render ∧
    (process_graphics_pipeline_stages env mesh st).num_triangles_to_render ≤ 10000 ∧
    st.num_triangles_to_render ≤
      (process_graphics_pipeline_stages env mesh st).num_triangles_to_render ∧
    (∀ i : Int, i < st.num_triangles_to_render →
      (process_graphics_pipeline_stages env mesh st).triangles_to_render i =
        st.triangles_to_render i) ∧
    (st.num_triangles_to_render = 10000 →
      (∀ t : triangle_t F, save_triangle st t = st) ∧
      (process_graphics_pipeline_stages env mesh st).num_triangles_to_render = 10000 ∧
      (process_graphics_pipeline_stages env mesh st).triangles_to_render =
        st.triangles_to_render) := by
  obtain ⟨ha, hn⟩ := pipeline_queue env mesh st
  have hc := queue_push_all_count (mesh_output env st.proj_matrix mesh) (queue_of st) h1
  have hmono := queue_push_all_mono (mesh_output env st.proj_matrix mesh) (queue_of st)
  rw [← hn] at hc hmono
  have hmax : MAX_TRIANGLES_PER_MESH = 10000 := rfl
  rw [hmax] at hc
  have hq2 : (queue_of st).2 = st.num_triangles_to_render := rfl
  rw [hq2] at hc hmono
  refine ⟨by omega, by omega, hmono, ?_, ?_⟩
  · intro i hi
    rw [ha]
    exact queue_push_all_outside _ _ _ (Or.inl hi)
  · intro hfull
    have hfull2 : MAX_TRIANGLES_PER_MESH ≤ (queue_of st).2 := by
      rw [hq2, hmax, hfull]
    refine ⟨?_, by omega, ?_⟩
    · intro t
      unfold save_triangle
      rw [if_neg (by rw [hmax, hfull]; omega)]
    · rw [ha, queue_push_all_full _ _ hfull2]
      rfl

/-- C2 at the concrete scene, from the empty queue. -/
theorem queue_bounded_append_only_witness :
    0 ≤ (process_graphics_pipeline_stages demo_env demo_mesh demo_state).num_triangles_to_render ∧
    (process_graphics_pipeline_stages demo_env demo_mesh demo_state).num_triangles_to_render ≤
      10000 :=
  have h := queue_bounded_append_only demo_env demo_mesh demo_state (by decide) (by decide)
  ⟨h.1, h.2.1⟩

/-! ## The world matrix -/

theorem mat4_mul_identity (a : mat4_t F) : mat4_mul_mat4 a mat4_identity = a := by
  funext i j
  fin_cases j <;> simp [mat4_mul_mat4, mat4_identity]

theorem mat4_mul_assoc (a b c : mat4_t F) :
    mat4_mul_mat4 a (mat4_mul_mat4 b c) = mat4_mul_mat4 (mat4_mul_mat4 a b) c := by
  funext i j
  simp only [mat4_mul_mat4]
  ring

theorem mat4_mul_vec4_mul (a b : mat4_t F) (v : vec4_t F) :
    mat4_mul_vec4 (mat4_mul_mat4 a b) v = mat4_mul_vec4 a (mat4_mul_vec4 b v) := by
  simp only [mat4_mul_vec4, mat4_mul_mat4, vec4_t.mk.injEq]
  refine ⟨?_, ?_, ?_, ?_⟩ <;> ring

theorem faces_loop_world (env : Env F) (mm : mesh_matrices F) (mesh : mesh_t F)
    (faces : List (face_t F)) (st : state F) (h : faces ≠ []) :
    (faces.foldl (process_face env mm mesh) st).world_matrix = world_matrix_of env mm := by
  induction faces generalizing st with
  | nil => exact absurd rfl h
  | cons f fs ih =>
    rw [List.foldl_cons]
    by_cases hfs : fs = []
    · subst hfs
      exact (process_face_spec env mm mesh st f).2.2
    · exact ih _ hfs

theorem world_matrix_of_model (env : Env F) (mm : mesh_matrices F)
    (h_id : env.mat4_identity = mat4_identity) (h_mul : env.mat4_mul_mat4 = mat4_mul_mat4) :
    world_matrix_of env mm = trs_product mm := by
  unfold world_matrix_of trs_product
  rw [h_id, h_mul, mat4_mul_identity, mat4_mul_assoc, mat4_mul_assoc, mat4_mul_assoc]

/-- C3: with the matrix helpers of `Matrix.h` being the matrix product, the
identity and the matrix-vector product, the world matrix that the per-vertex
loop builds is `translate * rotateX * rotateY * rotateZ * scale` of the mesh,
whatever the vertex and the earlier value of the global; applied to a point it
is `translate(rotateX(rotateY(rotateZ(scale(p)))))`; the transformed vertex is
the view matrix applied to that; and it is the value the global `world_matrix`
holds after the call for a mesh with a face. -/
theorem world_matrix_is_trs_product (env : Env F) (mesh : mesh_t F) (st : state F)
    (v : vec3_t F) (h_id : env.mat4_identity = mat4_identity)
    (h_mul : env.mat4_mul_mat4 = mat4_mul_mat4) (h_vec : env.mat4_mul_vec4 = mat4_mul_vec4) :
    (transform_vertex env (make_mesh_matrices env mesh) st v).1.world_matrix =
      trs_product (make_mesh_matrices env mesh) ∧
    (transform_vertex env (make_mesh_matrices env mesh) st v).2 =
      mat4_mul_vec4 st.view_matrix
        (mat4_mul_vec4 (trs_product (make_mesh_matrices env mesh)) (env.vec4_from_vec3 v)) ∧
    (∀ p : vec4_t F,
      mat4_mul_vec4 (trs_product (make_mesh_matrices env mesh)) p =
        mat4_mul_vec4
          (env.mat4_make_translation mesh.translation.x mesh.translation.y mesh.translation.z)
          (mat4_mul_vec4 (env.mat4_make_rotation_x mesh.rotation.x)
            (mat4_mul_vec4 (env.mat4_make_rotation_y mesh.rotation.y)
              (mat4_mul_vec4 (env.mat4_make_rotation_z mesh.rotation.z)
                (mat4_mul_vec4 (env.mat4_make_scale mesh.scale.x mesh.scale.y mesh.scale.z)
                  p))))) ∧
    (mesh.faces ≠ [] →
      (process_graphics_pipeline_stages env mesh st).world_matrix =
        trs_product (make_mesh_matrices env mesh)) := by
  have hw := world_matrix_of_model env (make_mesh_matrices env mesh) h_id h_mul
  refine ⟨hw, ?_, ?_, ?_⟩
  · show env.mat4_mul_vec4 st.view_matrix
      (env.mat4_mul_vec4 (world_matrix_of env (make_mesh_matrices env mesh))
        (env.vec4_from_vec3 v)) = _
    rw [hw, h_vec]
  · intro p
    unfold trs_product
    rw [mat4_mul_vec4_mul, mat4_mul_vec4_mul, mat4_mul_vec4_mul, mat4_mul_vec4_mul]
    rfl
  · intro hne
    rw [← hw]
    exact faces_loop_world env (make_mesh_matrices env mesh) mesh mesh.faces _ hne

/-- C3 at the concrete scene, whose matrix helpers are the modelled ones. -/
theorem world_matrix_is_trs_product_witness :
    (transform_vertex demo_env (make_mesh_matrices demo_env demo_mesh) demo_state
        ⟨1, 2, 3⟩).1.world_matrix =
      trs_product (make_mesh_matrices demo_env demo_mesh) :=
  (world_matrix_is_trs_product demo_env demo_mesh demo_state ⟨1, 2, 3⟩ rfl rfl rfl).1

/-! ## Float rounding -/

theorem round_half_even_bounds (q : F) :
    ⌊q⌋ ≤ round_half_even q ∧ round_half_even q ≤ ⌊q⌋ + 1 := by
  unfold round_half_even
  split_ifs <;> omega

theorem round_half_even_intCast (n : Int) : round_half_even (n : F) = n := by
  unfold round_half_even
  rw [Int.floor_intCast]
  simp

theorem round_half_even_mono {q q' : F} (h : q ≤ q') :
    round_half_even q ≤ round_half_even q' := by
  have hf : ⌊q⌋ ≤ ⌊q'⌋ := Int.floor_mono h
  rcases lt_or_eq_of_le hf with hlt | heq
  · have h1 := (round_half_even_bounds q).2
    have h2 := (round_half_even_bounds q').1
    omega
  · unfold round_half_even
    rw [← heq]
    split_ifs <;> first | omega | (exfalso; linarith)

theorem round_half_even_error (q : F) : |((round_half_even q : Int) : F) - q| ≤ 1 / 2 := by
  have h0 : (⌊q⌋ : F) ≤ q := Int.floor_le q
  have h1 : q < (⌊q⌋ : F) + 1 := Int.lt_floor_add_one q
  unfold round_half_even
  rw [abs_le]
  split_ifs with ha hb hc
  · constructor <;> linarith
  · push_cast
    constructor <;> linarith
  · have : q - (⌊q⌋ : F) = 1 / 2 := le_antisymm (not_lt.mp hb) (not_lt.mp ha)
    constructor <;> linarith
  · have : q - (⌊q⌋ : F) = 1 / 2 := le_antisymm (not_lt.mp hb) (not_lt.mp ha)
    push_cast
    constructor <;> linarith

theorem round_half_even_eq_of_near (q : F) (m : Int) (h : |q - (m : F)| < 1 / 2) :
    round_half_even q = m := by
  have he := round_half_even_error q
  have h1 : |((round_half_even q : Int) : F) - (m : F)| < 1 := by
    have : ((round_half_even q : Int) : F) - (m : F) =
        (((round_half_even q : Int) : F) - q) + (q - (m : F)) := by ring
    rw [this]
    calc |(((round_half_even q : Int) : F) - q) + (q - (m : F))|
        ≤ |((round_half_even q : Int) : F) - q| + |q - (m : F)| := abs_add _ _
      _ < 1 / 2 + 1 / 2 := add_lt_add_of_le_of_lt he h
      _ = 1 := by norm_num
  have h2 : |round_half_even q - m| < 1 := by
    have : ((|round_half_even q - m| : Int) : F) < ((1 : Int) : F) := by
      push_cast
      exact h1
    exact_mod_cast this
  have h3 := Int.abs_lt_one_iff.mp h2
  omega


theorem two_zpow_pos (e : Int) : (0 : F) < (2 : F) ^ e := zpow_pos (by norm_num) e

theorem two_zpow_le {a b : Int} (h : a ≤ b) : (2 : F) ^ a ≤ (2 : F) ^ b :=
  zpow_le_zpow_right₀ (by norm_num) h

theorem two_zpow_add (a b : Int) : (2 : F) ^ (a + b) = (2 : F) ^ a * (2 : F) ^ b :=
  zpow_add₀ (by norm_num) a b

theorem ulp_exponent_ge (x : F) : -149 ≤ ulp_exponent x := le_max_right _ _

theorem ulp_exponent_log (x : F) : Int.log 2 |x| - 23 ≤ ulp_exponent x := le_max_left _ _

theorem ulp_exponent_neg (x : F) : ulp_exponent (-x) = ulp_exponent x := by
  unfold ulp_exponent
  rw [abs_neg]

theorem abs_lt_two_zpow (x : F) : |x| < (2 : F) ^ (ulp_exponent x + 24) := by
  have h := Int.lt_zpow_succ_log_self (b := 2) (by norm_num) |x|
  have h2 : ((2 : ℕ) : F) = 2 := by norm_num
  rw [h2] at h
  have hl := ulp_exponent_log x
  exact lt_of_lt_of_le h (two_zpow_le (by omega))

theorem two_zpow_le_abs (x : F) (hx : x ≠ 0) (h : ulp_exponent x ≠ -149) :
    (2 : F) ^ (ulp_exponent x + 23) ≤ |x| := by
  have hpos : 0 < |x| := abs_pos.mpr hx
  have h1 := Int.zpow_log_le_self (b := 2) (by norm_num) hpos
  have h2 : ((2 : ℕ) : F) = 2 := by norm_num
  rw [h2] at h1
  have hE : ulp_exponent x = Int.log 2 |x| - 23 := by
    unfold ulp_exponent at h ⊢
    rcases max_cases (Int.log 2 |x| - 23) (-149) with ⟨h3, _⟩ | ⟨h3, _⟩
    · exact h3
    · exact absurd h3 h
  rw [hE]
  have : Int.log 2 |x| - 23 + 23 = Int.log 2 |x| := by omega
  rw [this]
  exact h1

theorem round_f32_zero : round_f32 (0 : F) = 0 := by
  unfold round_f32
  rw [zero_div]
  have := round_half_even_intCast (F := F) 0
  rw [Int.cast_zero] at this
  rw [this]
  simp

/-- Exactness on the grid. -/
theorem round_f32_exact (m e : Int) (hm : |m| < 2 ^ 24) (he : -149 ≤ e) :
    round_f32 ((m : F) * (2 : F) ^ e) = (m : F) * (2 : F) ^ e := by
  by_cases hm0 : m = 0
  · subst hm0
    simp [round_f32_zero]
  · have hmF : (m : F) ≠ 0 := by exact_mod_cast hm0
    have hx : (m : F) * (2 : F) ^ e ≠ 0 := mul_ne_zero hmF (ne_of_gt (two_zpow_pos e))
    have habs : |(m : F) * (2 : F) ^ e| < (2 : F) ^ (24 + e) := by
      rw [abs_mul, abs_of_pos (two_zpow_pos (F := F) e), two_zpow_add]
      apply mul_lt_mul_of_pos_right _ (two_zpow_pos e)
      have : ((|m| : Int) : F) < ((2 ^ 24 : Int) : F) := by exact_mod_cast hm
      rw [Int.cast_abs] at this
      rw [show ((24 : Int)) = ((24 : ℕ) : Int) from rfl, zpow_natCast]
      push_cast at this
      norm_num at this ⊢
      exact this
    have hlog : Int.log 2 |(m : F) * (2 : F) ^ e| < 24 + e := by
      have h2 : ((2 : ℕ) : F) = 2 := by norm_num
      have := (Int.lt_zpow_iff_log_lt (b := 2) (by norm_num) (abs_pos.mpr hx)
        (x := 24 + e)).mp (by rw [h2]; exact habs)
      exact this
    have hE : ulp_exponent ((m : F) * (2 : F) ^ e) ≤ e := by
      unfold ulp_exponent
      exact max_le (by omega) he
    unfold round_f32
    generalize ulp_exponent ((m : F) * (2 : F) ^ e) = E at hE
    obtain ⟨d, hd⟩ : ∃ d : ℕ, e = E + (d : Int) := ⟨(e - E).toNat, by omega⟩
    subst hd
    have hq : (m : F) * (2 : F) ^ (E + (d : Int)) / (2 : F) ^ E = ((m * 2 ^ d : Int) : F) := by
      rw [two_zpow_add, zpow_natCast]
      push_cast
      field_simp
      ring
    rw [hq, round_half_even_intCast, two_zpow_add, zpow_natCast]
    push_cast
    ring


theorem round_half_even_neg (q : F) : round_half_even (-q) = -round_half_even q := by
  have h0 : (⌊q⌋ : F) ≤ q := Int.floor_le q
  have h1 : q < (⌊q⌋ : F) + 1 := Int.lt_floor_add_one q
  by_cases hq : q = (⌊q⌋ : F)
  · obtain ⟨n, hn⟩ : ∃ n : Int, q = (n : F) := ⟨_, hq⟩
    subst hn
    rw [← Int.cast_neg, round_half_even_intCast, round_half_even_intCast]
  · have hlt : (⌊q⌋ : F) < q := lt_of_le_of_ne h0 (Ne.symm hq)
    have hfl : ⌊-q⌋ = -⌊q⌋ - 1 := by
      rw [Int.floor_eq_iff]
      push_cast
      constructor <;> linarith
    unfold round_half_even
    rw [hfl]
    push_cast
    split_ifs <;> first | omega | (exfalso; linarith)

theorem round_f32_neg (x : F) : round_f32 (-x) = -round_f32 x := by
  unfold round_f32
  rw [ulp_exponent_neg, neg_div, round_half_even_neg]
  push_cast
  ring

theorem round_half_even_abs_le (x : F) :
    |round_half_even (x / (2 : F) ^ ulp_exponent x)| ≤ 2 ^ 24 := by
  have h := abs_lt_two_zpow x
  rw [two_zpow_add] at h
  have hp := two_zpow_pos (F := F) (ulp_exponent x)
  have h24 : (2 : F) ^ (24 : Int) = ((2 ^ 24 : Int) : F) := by
    rw [show ((24 : Int)) = ((24 : ℕ) : Int) from rfl, zpow_natCast]
    push_cast
    norm_num
  rw [h24] at h
  have hq : |x / (2 : F) ^ ulp_exponent x| < ((2 ^ 24 : Int) : F) := by
    rw [abs_div, abs_of_pos hp, div_lt_iff₀ hp, mul_comm]
    exact h
  rw [abs_lt] at hq
  have hu := round_half_even_mono (le_of_lt hq.2)
  have hl := round_half_even_mono (le_of_lt hq.1)
  rw [round_half_even_intCast] at hu
  rw [← Int.cast_neg, round_half_even_intCast] at hl
  rw [abs_le]
  exact ⟨hl, hu⟩

theorem round_f32_idem (x : F) : round_f32 (round_f32 x) = round_f32 x := by
  have hb := round_half_even_abs_le x
  have hE := ulp_exponent_ge x
  have hdef : round_f32 x =
      ((round_half_even (x / (2 : F) ^ ulp_exponent x) : Int) : F) *
        (2 : F) ^ ulp_exponent x := rfl
  by_cases hlt : |round_half_even (x / (2 : F) ^ ulp_exponent x)| < 2 ^ 24
  · rw [hdef]
    exact round_f32_exact _ _ hlt hE
  · have heq : |round_half_even (x / (2 : F) ^ ulp_exponent x)| = 2 ^ 24 :=
      le_antisymm hb (not_lt.mp hlt)
    have key : ∀ m : Int, |m| = 2 ^ 24 →
        (m : F) * (2 : F) ^ ulp_exponent x =
          ((m / 2 : Int) : F) * (2 : F) ^ (ulp_exponent x + 1) ∧ |m / 2| < 2 ^ 24 := by
      intro m hm
      rcases abs_eq (by norm_num : (0 : Int) ≤ 2 ^ 24) |>.mp hm with h | h
      · subst h
        refine ⟨?_, by norm_num⟩
        rw [two_zpow_add]
        norm_num
        ring
      · subst h
        refine ⟨?_, by norm_num⟩
        rw [two_zpow_add]
        norm_num
        ring
    obtain ⟨k1, k2⟩ := key _ heq
    rw [hdef, k1]
    exact round_f32_exact _ _ k2 (by omega)

theorem round_f32_nonneg {x : F} (hx : 0 ≤ x) : 0 ≤ round_f32 x := by
  unfold round_f32
  apply mul_nonneg _ (le_of_lt (two_zpow_pos _))
  have h := round_half_even_mono (div_nonneg hx (le_of_lt (two_zpow_pos (ulp_exponent x))))
  have h0 := round_half_even_intCast (F := F) 0
  rw [Int.cast_zero] at h0
  rw [h0] at h
  exact_mod_cast h

theorem round_f32_mono_pos {x y : F} (hx : 0 < x) (hxy : x ≤ y) :
    round_f32 x ≤ round_f32 y := by
  have hy : 0 < y := lt_of_lt_of_le hx hxy
  have hE : ulp_exponent x ≤ ulp_exponent y := by
    unfold ulp_exponent
    apply max_le_max _ (le_refl _)
    have := Int.log_mono_right (b := 2) (abs_pos.mpr (ne_of_gt hx))
      (by rw [abs_of_pos hx, abs_of_pos hy]; exact hxy : |x| ≤ |y|)
    omega
  rcases eq_or_lt_of_le hE with heq | hlt
  · unfold round_f32
    rw [heq]
    apply mul_le_mul_of_nonneg_right _ (le_of_lt (two_zpow_pos _))
    have := round_half_even_mono
      (div_le_div_of_nonneg_right hxy (le_of_lt (two_zpow_pos (F := F) (ulp_exponent y))))
    exact_mod_cast this
  · have h24 : (2 : F) ^ (24 : Int) = ((2 ^ 24 : Int) : F) := by
      rw [show ((24 : Int)) = ((24 : ℕ) : Int) from rfl, zpow_natCast]
      push_cast
      norm_num
    have h23 : (2 : F) ^ (23 : Int) = ((2 ^ 23 : Int) : F) := by
      rw [show ((23 : Int)) = ((23 : ℕ) : Int) from rfl, zpow_natCast]
      push_cast
      norm_num
    have hA : round_f32 x ≤ (2 : F) ^ (ulp_exponent x + 24) := by
      have hb := (abs_le.mp (round_half_even_abs_le x)).2
      unfold round_f32
      rw [two_zpow_add, mul_comm ((2 : F) ^ ulp_exponent x), h24]
      apply mul_le_mul_of_nonneg_right _ (le_of_lt (two_zpow_pos _))
      exact_mod_cast hb
    have hB : (2 : F) ^ (ulp_exponent y + 23) ≤ round_f32 y := by
      have hne : ulp_exponent y ≠ -149 := by
        have := ulp_exponent_ge x
        omega
      have h1 := two_zpow_le_abs y (ne_of_gt hy) hne
      rw [abs_of_pos hy, two_zpow_add, h23] at h1
      have hp := two_zpow_pos (F := F) (ulp_exponent y)
      have hq : ((2 ^ 23 : Int) : F) ≤ y / (2 : F) ^ ulp_exponent y := by
        rw [le_div_iff₀ hp, mul_comm]
        exact h1
      have := round_half_even_mono hq
      rw [round_half_even_intCast] at this
      unfold round_f32
      rw [two_zpow_add, mul_comm ((2 : F) ^ ulp_exponent y), h23]
      apply mul_le_mul_of_nonneg_right _ (le_of_lt hp)
      exact_mod_cast this
    exact le_trans hA (le_trans (two_zpow_le (by omega)) hB)

theorem round_f32_mono {x y : F} (h : x ≤ y) : round_f32 x ≤ round_f32 y := by
  rcases lt_trichotomy 0 x with hx | hx | hx
  · exact round_f32_mono_pos hx h
  · subst hx
    rw [round_f32_zero]
    exact round_f32_nonneg h
  · rcases le_or_lt 0 y with hy | hy
    · have h1 : round_f32 x ≤ 0 := by
        have := round_f32_nonneg (x := -x) (by linarith)
        rw [round_f32_neg] at this
        linarith
      exact le_trans h1 (round_f32_nonneg hy)
    · have := round_f32_mono_pos (x := -y) (y := -x) (by linarith) (by linarith)
      rw [round_f32_neg, round_f32_neg] at this
      linarith

theorem round_f32_error (x : F) :
    |round_f32 x - x| ≤ |x| / 2 ^ 24 + 1 / 2 ^ 150 := by
  by_cases hx : x = 0
  · subst hx
    rw [round_f32_zero]
    simp
  · have hp := two_zpow_pos (F := F) (ulp_exponent x)
    have he := round_half_even_error (x / (2 : F) ^ ulp_exponent x)
    have hdiff : round_f32 x - x =
        (((round_half_even (x / (2 : F) ^ ulp_exponent x) : Int) : F) -
          x / (2 : F) ^ ulp_exponent x) * (2 : F) ^ ulp_exponent x := by
      unfold round_f32
      field_simp
    have h1 : |round_f32 x - x| ≤ 1 / 2 * (2 : F) ^ ulp_exponent x := by
      rw [hdiff, abs_mul, abs_of_pos hp]
      exact mul_le_mul_of_nonneg_right he (le_of_lt hp)
    have h2 : (2 : F) ^ ulp_exponent x ≤ |x| / 2 ^ 23 + 1 / 2 ^ 149 := by
      by_cases hE : ulp_exponent x = -149
      · rw [hE]
        have : (2 : F) ^ (-149 : Int) = 1 / 2 ^ 149 := by
          rw [zpow_neg, show ((149 : Int)) = ((149 : ℕ) : Int) from rfl, zpow_natCast, one_div]
        rw [this]
        have : (0 : F) ≤ |x| / 2 ^ 23 := by positivity
        linarith
      · have h3 := two_zpow_le_abs x hx hE
        rw [two_zpow_add] at h3
        have h23 : (2 : F) ^ (23 : Int) = 2 ^ 23 := by
          rw [show ((23 : Int)) = ((23 : ℕ) : Int) from rfl, zpow_natCast]
        rw [h23] at h3
        have : (2 : F) ^ ulp_exponent x ≤ |x| / 2 ^ 23 := by
          rw [le_div_iff₀ (by positivity)]
          exact h3
        have : (0 : F) ≤ 1 / 2 ^ 149 := by positivity
        linarith
    calc |round_f32 x - x| ≤ 1 / 2 * (2 : F) ^ ulp_exponent x := h1
      _ ≤ 1 / 2 * (|x| / 2 ^ 23 + 1 / 2 ^ 149) :=
          mul_le_mul_of_nonneg_left h2 (by norm_num)
      _ = |x| / 2 ^ 24 + 1 / 2 ^ 150 := by ring


theorem round_f32_eq_of_near (x : F) (L m : Int) (hlo : (2 : F) ^ L ≤ |x|)
    (hhi : |x| < (2 : F) ^ (L + 1)) (hL : -126 ≤ L)
    (h : |x / (2 : F) ^ (L - 23) - (m : F)| < 1 / 2) :
    round_f32 x = (m : F) * (2 : F) ^ (L - 23) := by
  have hpos : 0 < |x| := lt_of_lt_of_le (two_zpow_pos L) hlo
  have h2 : ((2 : ℕ) : F) = 2 := by norm_num
  have hlog : Int.log 2 |x| = L := by
    apply le_antisymm
    · have := (Int.lt_zpow_iff_log_lt (b := 2) (by norm_num) hpos (x := L + 1)).mp
        (by rw [h2]; exact hhi)
      omega
    · exact (Int.zpow_le_iff_le_log (b := 2) (by norm_num) hpos (x := L)).mp
        (by rw [h2]; exact hlo)
  have hE : ulp_exponent x = L - 23 := by
    unfold ulp_exponent
    rw [hlog]
    exact max_eq_left (by omega)
  unfold round_f32
  rw [hE, round_half_even_eq_of_near _ m h]

theorem round_f32_intCast (n : Int) (h : |n| < 2 ^ 24) : round_f32 (n : F) = (n : F) := by
  have := round_f32_exact (F := F) n 0 h (by norm_num)
  simpa using this

theorem round_f32_half (n : Int) (h : |n| < 2 ^ 24) :
    round_f32 ((n : F) / 2) = (n : F) / 2 := by
  have := round_f32_exact (F := F) n (-1) h (by norm_num)
  have e : (n : F) * (2 : F) ^ (-1 : Int) = (n : F) / 2 := by
    rw [zpow_neg, zpow_one, div_eq_mul_inv]
  rw [e] at this
  exact this

theorem half_window (W : Int) (h0 : 0 < W) (h1 : W < 2 ^ 24) :
    round_f32 (round_f32 (W : F) / 2) = (W : F) / 2 := by
  have hW : |W| < 2 ^ 24 := by rw [abs_of_pos h0]; exact h1
  rw [round_f32_intCast W hW, round_f32_half W hW]

theorem round_f32_neg_round (x : F) : round_f32 (round_f32 x * (-1)) = -round_f32 x := by
  rw [mul_neg_one, round_f32_neg, round_f32_idem]

theorem to_screen_eq (W H : Int) (hW0 : 0 < W) (hW1 : W < 2 ^ 24) (hH0 : 0 < H)
    (hH1 : H < 2 ^ 24) (p : vec4_t F) :
    to_screen W H p =
      ⟨round_f32 (round_f32 (p.x * ((W : F) / 2)) + (W : F) / 2),
        round_f32 (-round_f32 (p.y * ((H : F) / 2)) + (H : F) / 2), p.z, p.w⟩ := by
  unfold to_screen
  simp only [half_window W hW0 hW1, half_window H hH0 hH1, round_f32_neg_round]

/-- the mapping of one coordinate: `fl(fl(c * h) + h)` stays in `[0, 2h]` -/
theorem screen_coord_bounds (n : Int) (h0 : 0 < n) (h1 : n < 2 ^ 24) (c : F)
    (hc0 : -1 ≤ c) (hc1 : c ≤ 1) :
    0 ≤ round_f32 (round_f32 (c * ((n : F) / 2)) + (n : F) / 2) ∧
      round_f32 (round_f32 (c * ((n : F) / 2)) + (n : F) / 2) ≤ (n : F) := by
  have hn : |n| < 2 ^ 24 := by rw [abs_of_pos h0]; exact h1
  have hnn : |-n| < 2 ^ 24 := by rw [abs_neg]; exact hn
  have hpos : (0 : F) < (n : F) / 2 := by
    have : (0 : F) < (n : F) := by exact_mod_cast h0
    linarith
  have hhi : round_f32 (c * ((n : F) / 2)) ≤ (n : F) / 2 := by
    have := round_f32_mono (show c * ((n : F) / 2) ≤ (n : F) / 2 by nlinarith)
    rw [round_f32_half n hn] at this
    exact this
  have hlo : -((n : F) / 2) ≤ round_f32 (c * ((n : F) / 2)) := by
    have := round_f32_mono (show -((n : F) / 2) ≤ c * ((n : F) / 2) by nlinarith)
    rw [round_f32_neg, round_f32_half n hn] at this
    exact this
  constructor
  · have := round_f32_mono (show (0 : F) ≤ round_f32 (c * ((n : F) / 2)) + (n : F) / 2 by linarith)
    rw [round_f32_zero] at this
    exact this
  · have := round_f32_mono
      (show round_f32 (c * ((n : F) / 2)) + (n : F) / 2 ≤ (n : F) by linarith)
    rw [round_f32_intCast n hn] at this
    exact this

/-- the rounding error of the mapping of one coordinate in `[-1, 1]` -/
theorem screen_coord_error (n : Int) (h0 : 0 < n) (h1 : n < 2 ^ 24) (c : F)
    (hc0 : -1 ≤ c) (hc1 : c ≤ 1) :
    |round_f32 (round_f32 (c * ((n : F) / 2)) + (n : F) / 2) - (c * (n : F) / 2 + (n : F) / 2)| ≤
      3 * (n : F) / 2 ^ 25 + 2 / 2 ^ 150 := by
  have hn : |n| < 2 ^ 24 := by rw [abs_of_pos h0]; exact h1
  have hpos : (0 : F) < (n : F) / 2 := by
    have : (0 : F) < (n : F) := by exact_mod_cast h0
    linarith
  have hhi : round_f32 (c * ((n : F) / 2)) ≤ (n : F) / 2 := by
    have := round_f32_mono (show c * ((n : F) / 2) ≤ (n : F) / 2 by nlinarith)
    rw [round_f32_half n hn] at this
    exact this
  have hlo : -((n : F) / 2) ≤ round_f32 (c * ((n : F) / 2)) := by
    have := round_f32_mono (show -((n : F) / 2) ≤ c * ((n : F) / 2) by nlinarith)
    rw [round_f32_neg, round_f32_half n hn] at this
    exact this
  have ha : |c * ((n : F) / 2)| ≤ (n : F) / 2 := by
    rw [abs_le]
    constructor <;> nlinarith
  have e1 := round_f32_error (c * ((n : F) / 2))
  have e2 := round_f32_error (round_f32 (c * ((n : F) / 2)) + (n : F) / 2)
  have hs : |round_f32 (c * ((n : F) / 2)) + (n : F) / 2| ≤ (n : F) := by
    rw [abs_le]
    constructor <;> linarith
  have e1' : |round_f32 (c * ((n : F) / 2)) - c * ((n : F) / 2)| ≤
      (n : F) / 2 / 2 ^ 24 + 1 / 2 ^ 150 := by
    refine le_trans e1 ?_
    have : |c * ((n : F) / 2)| / 2 ^ 24 ≤ (n : F) / 2 / 2 ^ 24 :=
      div_le_div_of_nonneg_right ha (by positivity)
    linarith
  have e2' : |round_f32 (round_f32 (c * ((n : F) / 2)) + (n : F) / 2) -
      (round_f32 (c * ((n : F) / 2)) + (n : F) / 2)| ≤ (n : F) / 2 ^ 24 + 1 / 2 ^ 150 := by
    refine le_trans e2 ?_
    have : |round_f32 (c * ((n : F) / 2)) + (n : F) / 2| / 2 ^ 24 ≤ (n : F) / 2 ^ 24 :=
      div_le_div_of_nonneg_right hs (by positivity)
    linarith
  have hsplit : round_f32 (round_f32 (c * ((n : F) / 2)) + (n : F) / 2) -
      (c * (n : F) / 2 + (n : F) / 2) =
      (round_f32 (round_f32 (c * ((n : F) / 2)) + (n : F) / 2) -
        (round_f32 (c * ((n : F) / 2)) + (n : F) / 2)) +
      (round_f32 (c * ((n : F) / 2)) - c * ((n : F) / 2)) := by ring
  rw [hsplit]
  refine le_trans (abs_add _ _) ?_
  have : (n : F) / 2 ^ 24 + 1 / 2 ^ 150 + ((n : F) / 2 / 2 ^ 24 + 1 / 2 ^ 150) =
      3 * (n : F) / 2 ^ 25 + 2 / 2 ^ 150 := by ring
  linarith


/-! ## Screen-space mapping -/

theorem make_triangle_points (env : Env F) (proj : mat4_t F) (mesh : mesh_t F)
    (mesh_face : face_t F) (n : vec3_t F) (t : triangle_t F) (j : Fin 3) :
    (make_triangle_to_render env proj mesh mesh_face n t).points j =
      to_screen env.get_window_width env.get_window_height
        (env.mat4_mul_vec4_project proj (t.points j)) := rfl

theorem screen_y_form (y h : F) :
    round_f32 (-round_f32 (y * h) + h) = round_f32 (round_f32 (-y * h) + h) := by
  rw [neg_mul, round_f32_neg]

theorem half_window_nonneg (n : Int) (h0 : 0 < n) : (0 : F) ≤ (n : F) / 2 := by
  have : (0 : F) < (n : F) := by exact_mod_cast h0
  linarith

/-- C4, as the float arithmetic of lines 289-298 has it: in a window of width
`0 < W < 2^24` and height `0 < H < 2^24` the screen point emitted for a
projected point `(x, y, z, w)` is `(fl(fl(x*W/2) + W/2), fl(-fl(y*H/2) + H/2),
z, w)`, `fl` the rounding to `float`. For `-1 ≤ x ≤ 1` and `-1 ≤ y ≤ 1` it lies
in `[0, W] × [0, H]` and within `3*W/2^25 + 2^-149` and `3*H/2^25 + 2^-149` of
the exact `x*W/2 + W/2` and `-y*H/2 + H/2`; `(0, 0)` goes to the window centre;
a larger projected `y` gives a screen `y` that is smaller or equal; `y = 1` goes
to row `0` and `y = -1` to `H`. -/
theorem screen_mapping (env : Env F) (proj : mat4_t F) (mesh : mesh_t F)
    (mesh_face : face_t F) (n : vec3_t F) (t : triangle_t F) (j : Fin 3)
    (hW0 : 0 < env.get_window_width) (hW1 : env.get_window_width < 2 ^ 24)
    (hH0 : 0 < env.get_window_height) (hH1 : env.get_window_height < 2 ^ 24) :
    (make_triangle_to_render env proj mesh mesh_face n t).points j =
      ⟨round_f32
          (round_f32 ((env.mat4_mul_vec4_project proj (t.points j)).x *
            ((env.get_window_width : F) / 2)) + (env.get_window_width : F) / 2),
        round_f32
          (-round_f32 ((env.mat4_mul_vec4_project proj (t.points j)).y *
            ((env.get_window_height : F) / 2)) + (env.get_window_height : F) / 2),
        (env.mat4_mul_vec4_project proj (t.points j)).z,
        (env.mat4_mul_vec4_project proj (t.points j)).w⟩ ∧
    (∀ p : vec4_t F, -1 ≤ p.x → p.x ≤ 1 → -1 ≤ p.y → p.y ≤ 1 →
      0 ≤ (to_screen env.get_window_width env.get_window_height p).x ∧
      (to_screen env.get_window_width env.get_window_height p).x ≤ (env.get_window_width : F) ∧
      0 ≤ (to_screen env.get_window_width env.get_window_height p).y ∧
      (to_screen env.get_window_width env.get_window_height p).y ≤
        (env.get_window_height : F) ∧
      |(to_screen env.get_window_width env.get_window_height p).x -
          (p.x * (env.get_window_width : F) / 2 + (env.get_window_width : F) / 2)| ≤
        3 * (env.get_window_width : F) / 2 ^ 25 + 2 / 2 ^ 150 ∧
      |(to_screen env.get_window_width env.get_window_height p).y -
          (-p.y * (env.get_window_height : F) / 2 + (env.get_window_height : F) / 2)| ≤
        3 * (env.get_window_height : F) / 2 ^ 25 + 2 / 2 ^ 150) ∧
    (∀ p : vec4_t F, p.x = 0 → p.y = 0 →
      (to_screen env.get_window_width env.get_window_height p).x =
        (env.get_window_width : F) / 2 ∧
      (to_screen env.get_window_width env.get_window_height p).y =
        (env.get_window_height : F) / 2) ∧
    (∀ p q : vec4_t F, p.y ≤ q.y →
      (to_screen env.get_window_width env.get_window_height q).y ≤
        (to_screen env.get_window_width env.get_window_height p).y) ∧
    (∀ p : vec4_t F, p.y = 1 →
      (to_screen env.get_window_width env.get_window_height p).y = 0) ∧
    (∀ p : vec4_t F, p.y = -1 →
      (to_screen env.get_window_width env.get_window_height p).y =
        (env.get_window_height : F)) := by
  have hWa : |env.get_window_width| < 2 ^ 24 := by rw [abs_of_pos hW0]; exact hW1
  have hHa : |env.get_window_height| < 2 ^ 24 := by rw [abs_of_pos hH0]; exact hH1
  have heq := to_screen_eq (F := F) env.get_window_width env.get_window_height hW0 hW1 hH0 hH1
  refine ⟨?_, ?_, ?_, ?_, ?_, ?_⟩
  · rw [make_triangle_points, heq]
  · intro p hx0 hx1 hy0 hy1
    rw [heq]
    simp only
    rw [screen_y_form]
    have bx := screen_coord_bounds (F := F) env.get_window_width hW0 hW1 p.x hx0 hx1
    have b_y := screen_coord_bounds (F := F) env.get_window_height hH0 hH1 (-p.y)
      (by linarith) (by linarith)
    have ex := screen_coord_error (F := F) env.get_window_width hW0 hW1 p.x hx0 hx1
    have ey := screen_coord_error (F := F) env.get_window_height hH0 hH1 (-p.y)
      (by linarith) (by linarith)
    exact ⟨bx.1, bx.2, b_y.1, b_y.2, ex, ey⟩
  · intro p hx hy
    rw [heq]
    simp only [hx, hy, zero_mul, round_f32_zero, zero_add, neg_zero]
    exact ⟨round_f32_half _ hWa, round_f32_half _ hHa⟩
  · intro p q hpq
    rw [heq, heq]
    simp only
    apply round_f32_mono
    have := round_f32_mono
      (mul_le_mul_of_nonneg_right hpq (half_window_nonneg (F := F) env.get_window_height hH0))
    linarith
  · intro p hy
    rw [heq]
    simp only [hy, one_mul]
    rw [round_f32_half _ hHa, neg_add_cancel, round_f32_zero]
  · intro p hy
    rw [heq]
    simp only [hy]
    rw [neg_one_mul, round_f32_neg, round_f32_half _ hHa, neg_neg]
    have : (env.get_window_height : F) / 2 + (env.get_window_height : F) / 2 =
        (env.get_window_height : F) := by ring
    rw [this, round_f32_intCast _ hHa]

/-- C4 at the concrete scene: the first vertex of the triangle at depth 5, in
the 800 by 600 window. -/
theorem screen_mapping_witness :
    (make_triangle_to_render demo_env demo_proj_matrix demo_mesh demo_face ⟨0, 0, -4⟩
        (demo_clipped_triangle 5)).points 0 =
      ⟨round_f32
          (round_f32
            ((demo_env.mat4_mul_vec4_project demo_proj_matrix
              ((demo_clipped_triangle 5).points 0)).x *
              ((demo_env.get_window_width : ℚ) / 2)) + (demo_env.get_window_width : ℚ) / 2),
        round_f32
          (-round_f32
            ((demo_env.mat4_mul_vec4_project demo_proj_matrix
              ((demo_clipped_triangle 5).points 0)).y *
              ((demo_env.get_window_height : ℚ) / 2)) + (demo_env.get_window_height : ℚ) / 2),
        (demo_env.mat4_mul_vec4_project demo_proj_matrix
          ((demo_clipped_triangle 5).points 0)).z,
        (demo_env.mat4_mul_vec4_project demo_proj_matrix
          ((demo_clipped_triangle 5).points 0)).w⟩ :=
  (screen_mapping demo_env demo_proj_matrix demo_mesh demo_face ⟨0, 0, -4⟩
    (demo_clipped_triangle 5) 0 (by decide) (by decide) (by decide) (by decide)).1

/-- C4 refuted as stated: in the 600 rows of the concrete window the projected
`y = 2^-33` is larger than the projected `y = 0`, and both are emitted at the
screen `y = 300`: the larger projected `y` does not give a smaller screen `y`. -/
theorem screen_y_not_strictly_decreasing :
    (⟨0, 0, 0, 1⟩ : vec4_t ℚ).y < (⟨0, 1 / 2 ^ 33, 0, 1⟩ : vec4_t ℚ).y ∧
    (to_screen 800 600 (⟨0, 0, 0, 1⟩ : vec4_t ℚ)).y = 300 ∧
    (to_screen 800 600 (⟨0, 1 / 2 ^ 33, 0, 1⟩ : vec4_t ℚ)).y = 300 ∧
    ¬ ((to_screen 800 600 (⟨0, 1 / 2 ^ 33, 0, 1⟩ : vec4_t ℚ)).y <
        (to_screen 800 600 (⟨0, 0, 0, 1⟩ : vec4_t ℚ)).y) := by
  have h300 : round_f32 (300 : ℚ) = 300 := by
    have := round_f32_intCast (F := ℚ) 300 (by norm_num)
    simpa using this
  have ha : (to_screen 800 600 (⟨0, 0, 0, 1⟩ : vec4_t ℚ)).y = 300 := by
    rw [to_screen_eq 800 600 (by norm_num) (by norm_num) (by norm_num) (by norm_num)]
    norm_num [round_f32_zero, h300]
  have hb : (to_screen 800 600 (⟨0, 1 / 2 ^ 33, 0, 1⟩ : vec4_t ℚ)).y = 300 := by
    rw [to_screen_eq 800 600 (by norm_num) (by norm_num) (by norm_num) (by norm_num)]
    have e1 : round_f32 ((1 / 2 ^ 33 : ℚ) * (((600 : Int) : ℚ) / 2)) = 300 / 2 ^ 33 := by
      have := round_f32_exact (F := ℚ) 300 (-33) (by norm_num) (by norm_num)
      have e : ((300 : Int) : ℚ) * (2 : ℚ) ^ (-33 : Int) = 300 / 2 ^ 33 := by norm_num
      rw [e] at this
      rw [← this]
      congr 1
      norm_num
    have e2 : round_f32 (-(300 / 2 ^ 33 : ℚ) + ((600 : Int) : ℚ) / 2) = 300 := by
      have := round_f32_eq_of_near (-(300 / 2 ^ 33 : ℚ) + ((600 : Int) : ℚ) / 2) 8 9830400
        (by rw [abs_of_pos (by norm_num)]; norm_num)
        (by rw [abs_of_pos (by norm_num)]; norm_num) (by norm_num)
        (by rw [abs_lt]; constructor <;> norm_num)
      rw [this]
      norm_num
    show round_f32 (-round_f32 ((1 / 2 ^ 33 : ℚ) * (((600 : Int) : ℚ) / 2)) +
      ((600 : Int) : ℚ) / 2) = 300
    rw [e1, e2]
  refine ⟨by norm_num, ha, hb, ?_⟩
  rw [ha, hb]
  exact lt_irrefl _

/-! ## The entries that a call appends -/

theorem queue_push_all_entry_of_lt (ts : List (triangle_t F)) (q : queue_t F) (i : Int)
    (h1 : q.2 ≤ i) (h2 : i < (queue_push_all q ts).2) :
    ts[(i - q.2).toNat]? = some ((queue_push_all q ts).1 i) ∧ i < MAX_TRIANGLES_PER_MESH := by
  by_cases hfull : MAX_TRIANGLES_PER_MESH ≤ q.2
  · rw [queue_push_all_full ts q hfull] at h2
    omega
  · have hc := queue_push_all_count ts q (by omega)
    rw [hc] at h2
    have hk : (i - q.2).toNat < ts.length := by omega
    have hi : q.2 + (((i - q.2).toNat : Nat) : Int) = i := by omega
    have he := queue_push_all_entry ts q (i - q.2).toNat ts[(i - q.2).toNat]
      (List.getElem?_eq_getElem hk) (by omega)
    rw [hi] at he
    rw [he]
    exact ⟨List.getElem?_eq_getElem hk, by omega⟩

theorem queue_push_all_map_entry {α : Type} (r : α → triangle_t F) (xs : List α)
    (q : queue_t F) (i : Int) (h1 : q.2 ≤ i) (h2 : i < (queue_push_all q (xs.map r)).2) :
    ∃ x, xs[(i - q.2).toNat]? = some x ∧ (queue_push_all q (xs.map r)).1 i = r x := by
  obtain ⟨h, _⟩ := queue_push_all_entry_of_lt (xs.map r) q i h1 h2
  rw [List.getElem?_map] at h
  cases hx : xs[(i - q.2).toNat]? with
  | none => rw [hx] at h; simp at h
  | some x =>
    rw [hx] at h
    simp only [Option.map_some', Option.some.injEq] at h
    exact ⟨x, rfl, h.symm⟩

theorem mesh_output_eq_map (env : Env F) (proj : mat4_t F) (mesh : mesh_t F) :
    mesh_output env proj mesh =
      (mesh_clipped env mesh).map fun ft =>
        make_triangle_to_render env proj mesh ft.1
          (face_normal_of env (make_mesh_matrices env mesh) (view_matrix_of env) mesh ft.1)
          ft.2 := by
  unfold mesh_output mesh_clipped face_output
  rw [List.map_flatMap]
  congr 1
  funext f
  rw [List.map_map]
  rfl

theorem pipeline_count (env : Env F) (mesh : mesh_t F) (st : state F)
    (h : st.num_triangles_to_render ≤ 10000) :
    (process_graphics_pipeline_stages env mesh st).num_triangles_to_render =
      min (st.num_triangles_to_render + ((mesh_clipped env mesh).length : Int)) 10000 := by
  have hmax : MAX_TRIANGLES_PER_MESH = 10000 := rfl
  have hlen : (mesh_output env st.proj_matrix mesh).length = (mesh_clipped env mesh).length := by
    rw [mesh_output_eq_map, List.length_map]
  rw [(pipeline_queue env mesh st).2, queue_push_all_count _ _ (by rw [hmax]; exact h), hlen,
    hmax]
  rfl

theorem pipeline_entry_at (env : Env F) (mesh : mesh_t F) (st : state F) (k : Nat)
    (ft : face_t F × triangle_t F) (hk : (mesh_clipped env mesh)[k]? = some ft)
    (hroom : st.num_triangles_to_render + (k : Int) < 10000) :
    (process_graphics_pipeline_stages env mesh st).triangles_to_render
        (st.num_triangles_to_render + (k : Int)) =
      make_triangle_to_render env st.proj_matrix mesh ft.1
        (face_normal_of env (make_mesh_matrices env mesh) (view_matrix_of env) mesh ft.1)
        ft.2 := by
  rw [(pipeline_queue env mesh st).1]
  apply queue_push_all_entry _ (queue_of st) k
  · rw [mesh_output_eq_map, List.getElem?_map, hk]
    rfl
  · exact hroom

/-! ## The clipper of the spec keeps every vertex behind the near plane out -/

theorem clip_inside (plane : plane_t F) (a b c : vec3_t F × tex2_t F)
    (ha : 0 < plane_distance plane a.1) (hb : 0 < plane_distance plane b.1)
    (hc : 0 < plane_distance plane c.1) :
    clip_polygon_against_plane plane [a, b, c] = [a, b, c] := by
  have hab := not_lt.mpr (le_of_lt (mul_pos ha hb))
  have hbc := not_lt.mpr (le_of_lt (mul_pos hb hc))
  have hca := not_lt.mpr (le_of_lt (mul_pos hc ha))
  simp [clip_polygon_against_plane, clip_edge, le_of_lt ha, le_of_lt hb, le_of_lt hc, hab, hbc, hca]

/-! ## The concrete scene evaluated -/

theorem demo_world (z : ℚ) :
    world_matrix_of demo_env (make_mesh_matrices demo_env (demo_mesh_at z)) = mat4_identity := by
  funext i j
  fin_cases i <;> fin_cases j <;>
    simp [world_matrix_of, make_mesh_matrices, demo_env, demo_mesh_at, mat4_mul_mat4,
      mat4_identity, demo_make_translation, demo_make_scale]

theorem demo_camera_space (z : ℚ) :
    camera_space demo_env (make_mesh_matrices demo_env (demo_mesh_at z)) mat4_identity
        (demo_mesh_at z) demo_face =
      ![⟨-1, -1, z, 1⟩, ⟨-1, 1, z, 1⟩, ⟨1, 1, z, 1⟩] := by
  unfold camera_space camera_vertex
  rw [demo_world]
  simp [demo_env, mat4_mul_vec4, mat4_identity, face_vertices, demo_mesh_at, demo_face]

theorem demo_clip :
    clip_polygon demo_frustum
        (create_polygon_from_triangle ⟨-1, -1, 5⟩ ⟨-1, 1, 5⟩ ⟨1, 1, 5⟩ ⟨0, 0⟩ ⟨0, 1⟩ ⟨1, 1⟩
          ⟨0, 0, -4⟩) =
      create_polygon_from_triangle ⟨-1, -1, 5⟩ ⟨-1, 1, 5⟩ ⟨1, 1, 5⟩ ⟨0, 0⟩ ⟨0, 1⟩ ⟨1, 1⟩
        ⟨0, 0, -4⟩ := by
  unfold clip_polygon demo_frustum frustum_planes create_polygon_from_triangle
  simp only [List.foldl_cons, List.foldl_nil, List.zip_cons_cons, List.zip_nil_right]
  rw [clip_inside, clip_inside, clip_inside, clip_inside, clip_inside, clip_inside]
  · simp
  all_goals norm_num [plane_distance, vec3_dot, vec3_sub, near_plane, far_plane]

theorem demo_triangulate :
    triangles_from_polygon
        (create_polygon_from_triangle (⟨-1, -1, 5⟩ : vec3_t ℚ) ⟨-1, 1, 5⟩ ⟨1, 1, 5⟩ ⟨0, 0⟩ ⟨0, 1⟩
          ⟨1, 1⟩ ⟨0, 0, -4⟩) =
      [demo_clipped_triangle 5] := by
  simp [triangles_from_polygon, create_polygon_from_triangle, polygon_triangle,
    demo_clipped_triangle]

theorem demo_face_clipped :
    face_clipped demo_env (make_mesh_matrices demo_env demo_mesh) mat4_identity demo_mesh
        demo_face = [demo_clipped_triangle 5] := by
  have hcs := demo_camera_space 5
  have hm : demo_mesh = demo_mesh_at 5 := rfl
  unfold face_clipped face_normal_of
  rw [hm, hcs]
  have hn : demo_env.get_triangle_normal
      ![(⟨-1, -1, 5, 1⟩ : vec4_t ℚ), ⟨-1, 1, 5, 1⟩, ⟨1, 1, 5, 1⟩] = ⟨0, 0, -4⟩ := by
    simp [demo_env, demo_triangle_normal]
    norm_num
  rw [hn]
  have hcull : backface_culled demo_env
      ![(⟨-1, -1, 5, 1⟩ : vec4_t ℚ), ⟨-1, 1, 5, 1⟩, ⟨1, 1, 5, 1⟩] ⟨0, 0, -4⟩ = false := by
    simp [backface_culled, demo_env, vec3_new, vec3_sub, vec3_dot]
  rw [hcull]
  have hclip : clip_face demo_env demo_face
      ![(⟨-1, -1, 5, 1⟩ : vec4_t ℚ), ⟨-1, 1, 5, 1⟩, ⟨1, 1, 5, 1⟩] ⟨0, 0, -4⟩ =
      triangles_from_polygon (clip_polygon demo_frustum
        (create_polygon_from_triangle ⟨-1, -1, 5⟩ ⟨-1, 1, 5⟩ ⟨1, 1, 5⟩ ⟨0, 0⟩ ⟨0, 1⟩ ⟨1, 1⟩
          ⟨0, 0, -4⟩)) := by
    simp [clip_face, demo_env, demo_face]
  rw [hclip, demo_clip, demo_triangulate]
  rfl

theorem demo_process_face_count :
    (process_face demo_env (make_mesh_matrices demo_env demo_mesh) demo_mesh demo_state
      demo_face).num_triangles_to_render = 1 := by
  have hq := (process_face_spec demo_env (make_mesh_matrices demo_env demo_mesh) demo_mesh
    demo_state demo_face).1
  have hn := congrArg Prod.snd hq
  have hv : demo_state.view_matrix = mat4_identity := rfl
  have hfc := demo_face_clipped
  simp only [queue_of] at hn
  rw [hn]
  unfold face_output
  rw [hv, hfc]
  rfl

/-! ## Flat shading -/

theorem clamp01_spec (k : F) :
    0 ≤ clamp01 k ∧ clamp01 k ≤ 1 ∧ (k < 0 → clamp01 k = 0) ∧ (1 < k → clamp01 k = 1) ∧
      (0 ≤ k → k ≤ 1 → clamp01 k = k) := by
  unfold clamp01
  refine ⟨?_, ?_, ?_, ?_, ?_⟩
  · split_ifs <;> linarith
  · split_ifs <;> linarith
  · intro h
    rw [if_pos h]
  · intro h
    rw [if_neg (not_lt.mpr (le_of_lt (lt_trans zero_lt_one h))), if_pos h]
  · intro h0 h1
    rw [if_neg (not_lt.mpr h0), if_neg (not_lt.mpr h1)]

theorem scale_channel_le (channel : Nat) (k : F) (h1 : k ≤ 1) :
    scale_channel channel k ≤ channel := by
  unfold scale_channel
  have hc : (0 : F) ≤ (channel : F) := Nat.cast_nonneg _
  have h : (channel : F) * k ≤ (channel : F) := by nlinarith
  have := Nat.floor_mono h
  rw [Nat.floor_natCast] at this
  exact this

theorem scale_channel_zero (channel : Nat) : scale_channel channel (0 : F) = 0 := by
  simp [scale_channel]

theorem scale_channel_one (channel : Nat) : scale_channel channel (1 : F) = channel := by
  simp [scale_channel]

theorem pack_channels (a r g b : Nat) (ha : a < 256) (hr : r < 256) (hg : g < 256)
    (hb : b < 256) :
    color_alpha (a * 2 ^ 24 + r * 2 ^ 16 + g * 2 ^ 8 + b) = a ∧
      color_red (a * 2 ^ 24 + r * 2 ^ 16 + g * 2 ^ 8 + b) = r ∧
      color_green (a * 2 ^ 24 + r * 2 ^ 16 + g * 2 ^ 8 + b) = g ∧
      color_blue (a * 2 ^ 24 + r * 2 ^ 16 + g * 2 ^ 8 + b) = b := by
  unfold color_alpha color_red color_green color_blue
  norm_num
  omega

theorem light_channels (color : Nat) (k : F) :
    color_alpha (light_apply_intensity color k) = color_alpha color ∧
      color_red (light_apply_intensity color k) =
        scale_channel (color_red color) (clamp01 k) ∧
      color_green (light_apply_intensity color k) =
        scale_channel (color_green color) (clamp01 k) ∧
      color_blue (light_apply_intensity color k) =
        scale_channel (color_blue color) (clamp01 k) := by
  obtain ⟨_, c1, _, _, _⟩ := clamp01_spec k
  have ha : color_alpha color < 256 := Nat.mod_lt _ (by norm_num)
  have hr : color_red color < 256 := Nat.mod_lt _ (by norm_num)
  have hg : color_green color < 256 := Nat.mod_lt _ (by norm_num)
  have hb : color_blue color < 256 := Nat.mod_lt _ (by norm_num)
  exact pack_channels _ _ _ _ ha
    (lt_of_le_of_lt (scale_channel_le _ _ c1) hr)
    (lt_of_le_of_lt (scale_channel_le _ _ c1) hg)
    (lt_of_le_of_lt (scale_channel_le _ _ c1) hb)

theorem process_face_entry (env : Env F) (mm : mesh_matrices F) (mesh : mesh_t F)
    (st : state F) (mesh_face : face_t F) (i : Int) (h1 : st.num_triangles_to_render ≤ i)
    (h2 : i < (process_face env mm mesh st mesh_face).num_triangles_to_render) :
    ∃ t : triangle_t F,
      (face_clipped env mm st.view_matrix mesh mesh_face)[(i - st.num_triangles_to_render).toNat]? =
        some t ∧
      (process_face env mm mesh st mesh_face).triangles_to_render i =
        make_triangle_to_render env st.proj_matrix mesh mesh_face
          (face_normal_of env mm st.view_matrix mesh mesh_face) t := by
  have hq := (process_face_spec env mm mesh st mesh_face).1
  have ha := congrArg Prod.fst hq
  have hn := congrArg Prod.snd hq
  simp only [queue_of] at ha hn
  rw [hn] at h2
  rw [ha]
  exact queue_push_all_map_entry _ _ (st.triangles_to_render, st.num_triangles_to_render) i h1 h2

/-- C5: with `light_apply_intensity` as the spec describes it, every triangle
that `process_face` appends for a face carries the same colour,
`light_apply_intensity` of the base colour of the face and the intensity
`-dot(faceNormal, lightDirection)`: the red, green and blue channel of the base
colour each multiplied by the intensity clamped to `[0, 1]` (the fraction
dropped) and the alpha channel kept, the normal being the one computed from the
transformed vertices of the face; an intensity below 0 gives the channels times
0 and one above 1 the channels themselves. -/
theorem flat_shading_colour (env : Env F) (mm : mesh_matrices F) (mesh : mesh_t F)
    (st : state F) (mesh_face : face_t F) (i : Int)
    (h_light : env.light_apply_intensity = light_apply_intensity)
    (h1 : st.num_triangles_to_render ≤ i)
    (h2 : i < (process_face env mm mesh st mesh_face).num_triangles_to_render) :
    ((process_face env mm mesh st mesh_face).triangles_to_render i).color =
      light_apply_intensity mesh_face.color
        (-(env.vec3_dot
          (env.get_triangle_normal (camera_space env mm st.view_matrix mesh mesh_face))
          env.get_light_direction)) ∧
    color_red ((process_face env mm mesh st mesh_face).triangles_to_render i).color =
      ⌊(color_red mesh_face.color : F) *
        clamp01 (-(env.vec3_dot
          (env.get_triangle_normal (camera_space env mm st.view_matrix mesh mesh_face))
          env.get_light_direction))⌋₊ ∧
    color_green ((process_face env mm mesh st mesh_face).triangles_to_render i).color =
      ⌊(color_green mesh_face.color : F) *
        clamp01 (-(env.vec3_dot
          (env.get_triangle_normal (camera_space env mm st.view_matrix mesh mesh_face))
          env.get_light_direction))⌋₊ ∧
    color_blue ((process_face env mm mesh st mesh_face).triangles_to_render i).color =
      ⌊(color_blue mesh_face.color : F) *
        clamp01 (-(env.vec3_dot
          (env.get_triangle_normal (camera_space env mm st.view_matrix mesh mesh_face))
          env.get_light_direction))⌋₊ ∧
    color_alpha ((process_face env mm mesh st mesh_face).triangles_to_render i).color =
      color_alpha mesh_face.color ∧
    0 ≤ clamp01 (-(env.vec3_dot
          (env.get_triangle_normal (camera_space env mm st.view_matrix mesh mesh_face))
          env.get_light_direction)) ∧
    clamp01 (-(env.vec3_dot
          (env.get_triangle_normal (camera_space env mm st.view_matrix mesh mesh_face))
          env.get_light_direction)) ≤ 1 ∧
    (-(env.vec3_dot
          (env.get_triangle_normal (camera_space env mm st.view_matrix mesh mesh_face))
          env.get_light_direction) < 0 →
      color_red ((process_face env mm mesh st mesh_face).triangles_to_render i).color = 0 ∧
      color_green ((process_face env mm mesh st mesh_face).triangles_to_render i).color = 0 ∧
      color_blue ((process_face env mm mesh st mesh_face).triangles_to_render i).color = 0) ∧
    (1 < -(env.vec3_dot
          (env.get_triangle_normal (camera_space env mm st.view_matrix mesh mesh_face))
          env.get_light_direction) →
      color_red ((process_face env mm mesh st mesh_face).triangles_to_render i).color =
        color_red mesh_face.color ∧
      color_green ((process_face env mm mesh st mesh_face).triangles_to_render i).color =
        color_green mesh_face.color ∧
      color_blue ((process_face env mm mesh st mesh_face).triangles_to_render i).color =
        color_blue mesh_face.color) := by
  obtain ⟨t, _, ht⟩ := process_face_entry env mm mesh st mesh_face i h1 h2
  have hcol : ((process_face env mm mesh st mesh_face).triangles_to_render i).color =
      light_apply_intensity mesh_face.color
        (-(env.vec3_dot
          (env.get_triangle_normal (camera_space env mm st.view_matrix mesh mesh_face))
          env.get_light_direction)) := by
    rw [ht]
    show env.light_apply_intensity mesh_face.color _ = _
    rw [h_light]
    rfl
  obtain ⟨la, lr, lg, lb⟩ := light_channels mesh_face.color
    (-(env.vec3_dot
      (env.get_triangle_normal (camera_space env mm st.view_matrix mesh mesh_face))
      env.get_light_direction))
  obtain ⟨c0, c1, clo, chi, _⟩ := clamp01_spec (-(env.vec3_dot
    (env.get_triangle_normal (camera_space env mm st.view_matrix mesh mesh_face))
    env.get_light_direction))
  refine ⟨hcol, ?_⟩
  rw [hcol]
  refine ⟨lr, lg, lb, la, c0, c1, ?_, ?_⟩
  · intro h
    rw [lr, lg, lb, clo h]
    exact ⟨scale_channel_zero _, scale_channel_zero _, scale_channel_zero _⟩
  · intro h
    rw [lr, lg, lb, chi h]
    exact ⟨scale_channel_one _, scale_channel_one _, scale_channel_one _⟩

/-- C5 at the concrete scene: the red channel of the one triangle of the lit
face. -/
theorem flat_shading_colour_witness :
    color_red ((process_face demo_env (make_mesh_matrices demo_env demo_mesh) demo_mesh
        demo_state demo_face).triangles_to_render 0).color =
      ⌊(color_red demo_face.color : ℚ) *
        clamp01 (-(demo_env.vec3_dot
          (demo_env.get_triangle_normal
            (camera_space demo_env (make_mesh_matrices demo_env demo_mesh)
              demo_state.view_matrix demo_mesh demo_face))
          demo_env.get_light_direction))⌋₊ :=
  (flat_shading_colour demo_env (make_mesh_matrices demo_env demo_mesh) demo_mesh demo_state
    demo_face 0 rfl (by decide) (by rw [demo_process_face_count]; decide)).2.1

/-! ## What a call appends -/

/-- C10: from a count of at most 10000, `process_graphics_pipeline_stages`
handles one render-ready triangle per triangle that clipping and triangulation
return for the faces that pass the backface test, faces in mesh order and
triangles in triangulation order (the count grows by their number, up to the
capacity); each one that finds room in the queue is appended at the next index
and carries the UV pairs and the normal of its clipped triangle, the texture of
the mesh, and as points the screen mapping of the projection of the clipped
vertices; no other entry changes. -/
theorem pipeline_appends_clipped (env : Env F) (mesh : mesh_t F) (st : state F)
    (h : st.num_triangles_to_render ≤ 10000) :
    (process_graphics_pipeline_stages env mesh st).num_triangles_to_render =
      min (st.num_triangles_to_render + ((mesh_clipped env mesh).length : Int)) 10000 ∧
    (∀ (k : Nat) (mesh_face : face_t F) (t : triangle_t F),
      (mesh_clipped env mesh)[k]? = some (mesh_face, t) →
      st.num_triangles_to_render + (k : Int) < 10000 →
      ((process_graphics_pipeline_stages env mesh st).triangles_to_render
          (st.num_triangles_to_render + (k : Int))).texcoords = t.texcoords ∧
      ((process_graphics_pipeline_stages env mesh st).triangles_to_render
          (st.num_triangles_to_render + (k : Int))).normal = t.normal ∧
      ((process_graphics_pipeline_stages env mesh st).triangles_to_render
          (st.num_triangles_to_render + (k : Int))).texture = mesh.texture ∧
      ∀ j : Fin 3,
        ((process_graphics_pipeline_stages env mesh st).triangles_to_render
            (st.num_triangles_to_render + (k : Int))).points j =
          to_screen env.get_window_width env.get_window_height
            (env.mat4_mul_vec4_project st.proj_matrix (t.points j))) ∧
    (∀ i : Int,
      i < st.num_triangles_to_render ∨
          (process_graphics_pipeline_stages env mesh st).num_triangles_to_render ≤ i →
      (process_graphics_pipeline_stages env mesh st).triangles_to_render i =
        st.triangles_to_render i) := by
  refine ⟨pipeline_count env mesh st h, ?_, ?_⟩
  · intro k mesh_face t hk hroom
    rw [pipeline_entry_at env mesh st k (mesh_face, t) hk hroom]
    exact ⟨rfl, rfl, rfl, fun j => rfl⟩
  · intro i hi
    obtain ⟨ha, hn2⟩ := pipeline_queue env mesh st
    rw [hn2] at hi
    rw [ha]
    exact queue_push_all_outside _ _ _ hi

/-- C10 at the concrete scene: one face, one triangle, appended at index 0. -/
theorem pipeline_appends_clipped_witness :
    (process_graphics_pipeline_stages demo_env demo_mesh demo_state).num_triangles_to_render =
      min (demo_state.num_triangles_to_render + ((mesh_clipped demo_env demo_mesh).length : Int))
        10000 :=
  (pipeline_appends_clipped demo_env demo_mesh demo_state (by decide)).1

/-! ## Window size -/

theorem flatMap_output_length (env : Env F) (proj : mat4_t F) (ms : List (mesh_t F)) :
    (ms.flatMap (mesh_output env proj)).length =
      (ms.map fun m => (mesh_clipped env m).length).sum := by
  induction ms with
  | nil => rfl
  | cons m ms ih =>
    simp only [List.flatMap_cons, List.length_append, List.map_cons, List.sum_cons, ih]
    rw [mesh_output_eq_map, List.length_map]

/-- C6: `update` starts the queue of the frame from a count of 0. Two starting
states that agree on the meshes, on `previous_frame_time` and on the projection
matrix, whatever their queues hold, end with the same count and the same entries
below it; the count is the number of triangles that all the meshes of the scene
emit in the frame, capped at 10000. -/
theorem update_resets_queue (env : Env F) (ticks_delta ticks_previous : Nat)
    (st1 st2 : state F) (hm : st1.meshes = st2.meshes)
    (hp : st1.previous_frame_time = st2.previous_frame_time)
    (hproj : st1.proj_matrix = st2.proj_matrix) :
    (update env ticks_delta ticks_previous st1).num_triangles_to_render =
      (update env ticks_delta ticks_previous st2).num_triangles_to_render ∧
    (∀ i : Int, 0 ≤ i →
      i < (update env ticks_delta ticks_previous st1).num_triangles_to_render →
      (update env ticks_delta ticks_previous st1).triangles_to_render i =
        (update env ticks_delta ticks_previous st2).triangles_to_render i) ∧
    (update env ticks_delta ticks_previous st1).num_triangles_to_render =
      min ((((st1.meshes.map
          (animate (compute_delta_time ticks_delta st1.previous_frame_time))).map
          fun m => (mesh_clipped env m).length).sum : Nat) : Int) 10000 := by
  have hq1 := (update_spec env ticks_delta ticks_previous st1).1
  have hq2 := (update_spec env ticks_delta ticks_previous st2).1
  rw [← hm, ← hp, ← hproj] at hq2
  have ha1 := congrArg Prod.fst hq1
  have hn1 := congrArg Prod.snd hq1
  have ha2 := congrArg Prod.fst hq2
  have hn2 := congrArg Prod.snd hq2
  simp only [queue_of] at ha1 hn1 ha2 hn2
  have hmax : MAX_TRIANGLES_PER_MESH = 10000 := rfl
  have hc1 := queue_push_all_count
    ((st1.meshes.map (animate (compute_delta_time ticks_delta st1.previous_frame_time))).flatMap
      (mesh_output env st1.proj_matrix)) (st1.triangles_to_render, 0)
    (by show (0 : Int) ≤ MAX_TRIANGLES_PER_MESH; decide)
  have hc2 := queue_push_all_count
    ((st1.meshes.map (animate (compute_delta_time ticks_delta st1.previous_frame_time))).flatMap
      (mesh_output env st1.proj_matrix)) (st2.triangles_to_render, 0)
    (by show (0 : Int) ≤ MAX_TRIANGLES_PER_MESH; decide)
  refine ⟨?_, ?_, ?_⟩
  · rw [hn1, hn2, hc1, hc2]
  · intro i hi0 hi
    rw [hn1] at hi
    have hi2 := hi
    rw [hc1, ← hc2] at hi2
    have e1 := (queue_push_all_entry_of_lt _ (st1.triangles_to_render, 0) i hi0 hi).1
    have e2 := (queue_push_all_entry_of_lt _ (st2.triangles_to_render, 0) i hi0 hi2).1
    rw [ha1, ha2]
    exact Option.some.inj (e1.symm.trans e2)
  · rw [hn1, hc1, flatMap_output_length, hmax]
    simp only [zero_add]

/-- C6 at the concrete scene: an empty queue and a stale queue of five entries. -/
theorem update_resets_queue_witness :
    (update demo_env 16 16 demo_state).num_triangles_to_render =
      (update demo_env 16 16 demo_state_stale).num_triangles_to_render :=
  (update_resets_queue demo_env 16 16 demo_state demo_state_stale rfl rfl rfl).1

/-- C7: one call of `update` replaces every mesh of the scene by the mesh with
`0.5 * delta_time` added to `rotation.y` and every other field as it was
(`rotation.x`, `rotation.z`, scale, translation, vertices, faces, texture), where
`delta_time` is the value the call computes; `process_graphics_pipeline_stages`
leaves the meshes as they are. -/
theorem update_mutates_rotation_y_only (env : Env F) (ticks_delta ticks_previous : Nat)
    (st : state F) :
    (update env ticks_delta ticks_previous st).meshes =
      st.meshes.map (fun m =>
        { vertices := m.vertices
          faces := m.faces
          texture := m.texture
          scale := m.scale
          rotation :=
            ⟨m.rotation.x,
              m.rotation.y + (1 / 2) * (update env ticks_delta ticks_previous st).delta_time,
              m.rotation.z⟩
          translation := m.translation }) ∧
    (update env ticks_delta ticks_previous st).delta_time =
      compute_delta_time ticks_delta st.previous_frame_time ∧
    (∀ (mesh : mesh_t F) (s : state F),
      (process_graphics_pipeline_stages env mesh s).meshes = s.meshes) := by
  obtain ⟨_, hm, hd, _, _⟩ := update_spec env ticks_delta ticks_previous st
  refine ⟨?_, hd, fun mesh s => (pipeline_spec env mesh s).2.2.1⟩
  rw [hm, hd]
  rfl

end CRenderer
